import Mathlib

/-!
Verification of the entity-resolution, ranking and itinerary-mapping subsystem
of the `searoutes` schedule provider (`backend/app/providers/searoutes.py`).

The Python source is shallowly embedded: pure helpers become Lean functions on
`String`/`List`, Python exceptions become `Except` values, the in-memory
carrier cache becomes explicit state passing, and the upstream HTTP responses
consumed by the resolvers become oracle parameters.  Python `list.sort()` over
key tuples that end in the raw candidate dict is modelled by a stable insertion
sort whose comparison can fail (Python raises `TypeError` when two tuples agree
on all scalar components but hold distinct dicts); on inputs where every needed
comparison is defined the model agrees with CPython's stable sort.

Unicode caveat: `_ascii_norm` uses NFKD + combining-mark stripping, which is
the identity on the ASCII fragment modelled here; whitespace collapsing,
trimming and casefolding are modelled exactly for ASCII.  All concrete inputs
used below are ASCII.
-/

namespace Searoutes

/-- Python `\s` for the ASCII fragment: space, tab, newline, carriage return,
vertical tab, form feed. -/
def pyIsSpace (c : Char) : Bool :=
  c = ' ' || c = '\t' || c = '\n' || c = '\r' || c = '\x0b' || c = '\x0c'

/-- ASCII `[A-Za-z0-9]`, the character class of `_alnum_only` and `_tokens`. -/
def pyIsAlnum (c : Char) : Bool :=
  ('A' ≤ c && c ≤ 'Z') || ('a' ≤ c && c ≤ 'z') || ('0' ≤ c && c ≤ '9')

/-- ASCII `[A-Z]`. -/
def pyIsUpperAlpha (c : Char) : Bool := 'A' ≤ c && c ≤ 'Z'

/-- ASCII `[0-9]`. -/
def pyIsDigit (c : Char) : Bool := '0' ≤ c && c ≤ '9'

/-- Helper for `collapseWs`: the flag records whether we are inside a
whitespace run that has already emitted its single space. -/
def collapseWsAux : Bool → List Char → List Char
  | _, [] => []
  | inRun, c :: cs =>
    if pyIsSpace c then
      if inRun then collapseWsAux true cs else ' ' :: collapseWsAux true cs
    else
      c :: collapseWsAux false cs

/-- Collapse every run of whitespace characters to a single space
(`re.sub(r"\s+", " ", s)`). -/
def collapseWs (l : List Char) : List Char :=
  collapseWsAux false l

/-- Python `str.strip()` restricted to the whitespace class above. -/
def pyStrip (l : List Char) : List Char :=
  ((l.dropWhile pyIsSpace).reverse.dropWhile pyIsSpace).reverse

/-- `_ascii_norm`: strip diacritics (identity on ASCII), collapse whitespace
runs to one space, trim, casefold (ASCII lowercasing). -/
def asciiNorm (s : String) : String :=
  String.mk ((pyStrip (collapseWs s.data)).map Char.toLower)

/-- `_alnum_only`: keep only ASCII letters and digits. -/
def alnumOnly (s : String) : String :=
  String.mk (s.data.filter pyIsAlnum)

/-- Python `str.upper()` on the ASCII fragment. -/
def strUpper (s : String) : String :=
  String.mk (s.data.map Char.toUpper)

/-- Python `str.lower()` on the ASCII fragment. -/
def strLower (s : String) : String :=
  String.mk (s.data.map Char.toLower)

/-- Helper for `splitAlnumRuns`: `cur` is the (reversed) alphanumeric run
currently being read. -/
def splitAlnumAux : List Char → List Char → List (List Char)
  | cur, [] => if cur.isEmpty then [] else [cur.reverse]
  | cur, c :: cs =>
    if pyIsAlnum c then
      splitAlnumAux (c :: cur) cs
    else if cur.isEmpty then
      splitAlnumAux [] cs
    else
      cur.reverse :: splitAlnumAux [] cs

/-- Split a character list on runs of non-alphanumeric characters
(`re.split(r"[^A-Za-z0-9]+", s)` with empty pieces dropped). -/
def splitAlnumRuns (l : List Char) : List (List Char) :=
  splitAlnumAux [] l

/-- `_tokens`: split the normalized string into nonempty alphanumeric tokens. -/
def pyTokens (s : String) : List String :=
  (splitAlnumRuns (asciiNorm s).data).map String.mk

/-- Whether `n` occurs as a contiguous sublist of the second argument. -/
def listIn (n : List Char) : List Char → Bool
  | [] => n.isEmpty
  | c :: cs => n.isPrefixOf (c :: cs) || listIn n cs

/-- Decide whether `needle` occurs as a contiguous substring (Python `in`). -/
def strIn (needle hay : String) : Bool :=
  listIn needle.data hay.data

/-- Python `str.startswith` on the character lists. -/
def pyStartsWith (s pre : String) : Bool :=
  pre.data.isPrefixOf s.data

/-- The noise prefixes stripped by `_strip_port_noise`, in source order. -/
def portNoisePrefixes : List String :=
  ["port of ", "porto di ", "puerto de ", "puerto del ",
   "port ", "harbor of ", "harbour of "]

/-- `_strip_port_noise`: remove the first matching noise prefix, once. -/
def stripPortNoise (s : String) : String :=
  match portNoisePrefixes.find? (fun p => pyStartsWith s p) with
  | some p => String.mk (s.data.drop p.length)
  | none => s

/-- Helper for `pyReplace`: replace every occurrence of `old` by `new`,
scanning left to right.  The fuel argument (instantiated with the input
length) makes the recursion structural; each step consumes at least one
character, so the fuel never runs out on the real calls. -/
def pyReplaceAux (old new : List Char) : Nat → List Char → List Char
  | _, [] => []
  | 0, l => l
  | fuel + 1, c :: cs =>
    if !old.isEmpty && old.isPrefixOf (c :: cs) then
      new ++ pyReplaceAux old new fuel ((c :: cs).drop old.length)
    else
      c :: pyReplaceAux old new fuel cs

/-- Python `str.replace(old, new)`, replacing every occurrence left to right
(used for `.replace("Z", "+00:00")`). -/
def pyReplace (s old new : String) : String :=
  String.mk (pyReplaceAux old.data new.data s.data.length s.data)

/-- Truthiness of an optional string value as Python sees a `dict.get` result:
present and nonempty. -/
def optTruthy : Option String → Bool
  | some s => s ≠ ""
  | none => false

/-- First truthy value out of an ordered list of probed keys, else `""`
(the shape of every `_port_*` / `_carrier_*` field extractor). -/
def pyFirstStr (l : List (Option String)) : String :=
  match l.find? optTruthy with
  | some (some s) => s
  | _ => ""

/-- An upstream port candidate, as a record over the key aliases probed by the
field extractors.  A `none` field models both an absent key and a `None`
value (the extractors treat them alike via `dict.get` + truthiness); `size`
models `int(v)` with a `none` for absent/unparsable values (both yield 0). -/
structure PortRec where
  displayName : Option String := none
  name : Option String := none
  portName : Option String := none
  shortName : Option String := none
  locode : Option String := none
  unLocode : Option String := none
  code : Option String := none
  unlocode : Option String := none
  countryCode : Option String := none
  country : Option String := none
  countryName : Option String := none
  country_code : Option String := none
  attributesName : Option String := none
  attributesLocode : Option String := none
  size : Option Int := none
deriving DecidableEq, Repr

/-- An upstream carrier candidate, over the aliases probed by the carrier
field extractors. -/
structure CarrierRec where
  displayName : Option String := none
  name : Option String := none
  shortName : Option String := none
  legalName : Option String := none
  carrierName : Option String := none
  companyName : Option String := none
  attributesName : Option String := none
  scac : Option String := none
  scacCode : Option String := none
  code : Option String := none
  id : Option String := none
  carrierId : Option String := none
  companyId : Option String := none
deriving DecidableEq, Repr

/-- `_port_name`: probe `displayName, name, portName, shortName`, then the
nested `attributes.name`. -/
def portNameOf (p : PortRec) : String :=
  pyFirstStr [p.displayName, p.name, p.portName, p.shortName, p.attributesName]

/-- `_port_locode`: probe `locode, unLocode, code, unlocode`, then
`attributes.locode`. -/
def portLocodeOf (p : PortRec) : String :=
  pyFirstStr [p.locode, p.unLocode, p.code, p.unlocode, p.attributesLocode]

/-- `_port_country`: probe `countryCode, country, countryName, country_code`. -/
def portCountryOf (p : PortRec) : String :=
  pyFirstStr [p.countryCode, p.country, p.countryName, p.country_code]

/-- `_port_size`: `int(size)` with default 0 on absent or unparsable value. -/
def portSizeOf (p : PortRec) : Int :=
  p.size.getD 0

/-- `_carrier_name`: probe the six name aliases, then `attributes.name`. -/
def carrierNameOf (c : CarrierRec) : String :=
  pyFirstStr [c.displayName, c.name, c.shortName, c.legalName, c.carrierName,
    c.companyName, c.attributesName]

/-- `_carrier_scac`: probe `scac, scacCode, code`. -/
def carrierScacOf (c : CarrierRec) : String :=
  pyFirstStr [c.scac, c.scacCode, c.code]

/-- `_carrier_id`: probe `id, carrierId, companyId`. -/
def carrierIdOf (c : CarrierRec) : String :=
  pyFirstStr [c.id, c.carrierId, c.companyId]

/-- The UN/LOCODE shape `^[A-Z]{2}[A-Z0-9]{3}$` tested on the
alphanumeric-only uppercased query. -/
def isLocodeForm (s : String) : Bool :=
  match s.data with
  | [a, b, c, d, e] =>
    pyIsUpperAlpha a && pyIsUpperAlpha b &&
    (pyIsUpperAlpha c || pyIsDigit c) && (pyIsUpperAlpha d || pyIsDigit d) &&
    (pyIsUpperAlpha e || pyIsDigit e)
  | _ => false

/-- The SCAC shape `^[A-Z0-9]{2,4}$` tested on the alphanumeric-only
uppercased query. -/
def isScacForm (s : String) : Bool :=
  2 ≤ s.data.length && s.data.length ≤ 4 &&
    s.data.all (fun c => pyIsUpperAlpha c || pyIsDigit c)

/-- The Python exceptions that the modelled fragment can raise. -/
inductive PyExc where
  /-- `ValueError` ("not found" in the resolvers). -/
  | valueError (msg : String)
  /-- `SearoutesError` and its subclasses (rate limit, API error, network). -/
  | searoutes (msg : String)
  /-- `TypeError` (raised by `list.sort` when comparing two key tuples whose
  scalar components are equal but whose trailing dicts differ). -/
  | typeError
  /-- any other exception. -/
  | otherExc (msg : String)
deriving DecidableEq, Repr

deriving instance DecidableEq for Except

/-- Python-style insertion of `x` into `acc` using a comparison that can
raise: `x` goes in front of the first element `a` with `x < a`, which is how
CPython's stable sort orders equal elements.  A raised comparison aborts the
sort, as in Python. -/
def pyInsert (lt : α → α → Except PyExc Bool) (x : α) : List α → Except PyExc (List α)
  | [] => .ok [x]
  | a :: l => do
    let b ← lt x a
    if b then
      .ok (x :: a :: l)
    else
      let r ← pyInsert lt x l
      .ok (a :: r)

/-- Stable insertion sort driven by `pyInsert`, processing the input left to
right.  On inputs where every performed comparison is defined this agrees
with CPython's `list.sort()`. -/
def pySortAcc (lt : α → α → Except PyExc Bool) : List α → List α → Except PyExc (List α)
  | acc, [] => .ok acc
  | acc, x :: rest => do
    let acc' ← pyInsert lt x acc
    pySortAcc lt acc' rest

/-- `list.sort()` over a comparison that can raise. -/
def pySort (lt : α → α → Except PyExc Bool) (l : List α) : Except PyExc (List α) :=
  pySortAcc lt [] l

/-- `exact_locode` / `exact_scac`: extracted code (alnum-only uppercased)
and query code both nonempty and equal. -/
def exactCodeFeature (qCode codeUp : String) : Bool :=
  codeUp ≠ "" && qCode ≠ "" && codeUp = qCode

/-- `exact_name`: normalized name and normalized query both nonempty and
equal. -/
def exactNameFeature (qNorm nameNorm : String) : Bool :=
  nameNorm ≠ "" && qNorm ≠ "" && nameNorm = qNorm

/-- The port match score of `_rank_ports.extract`, given the query-derived
values and the candidate's extracted fields. -/
def portScore (qNorm qLocode : String) (qTokens : List String)
    (isLocodeQuery : Bool) (p : PortRec) : Int :=
  let name := portNameOf p
  let locode := portLocodeOf p
  let nameNorm := asciiNorm name
  let nameTokens := pyTokens name
  let locodeUp := strUpper (alnumOnly locode)
  let exactLocode := exactCodeFeature qLocode locodeUp
  let exactName := exactNameFeature qNorm nameNorm
  let nameForSw := stripPortNoise nameNorm
  let startswith := pyStartsWith nameForSw qNorm
  let tokenContains := !qTokens.isEmpty &&
    qTokens.all (fun tok => nameTokens.any (fun t => pyStartsWith t tok || t = tok))
  let contains := tokenContains || strIn qNorm nameNorm
  if isLocodeQuery then
    if exactLocode then 4
    else if exactName then 3
    else if startswith then 2
    else if contains then 1
    else 0
  else
    if exactName then 4
    else if startswith then 3
    else if contains then 2
    else if exactLocode then 1
    else 0

/-- The sorting key of `_rank_ports.extract`:
`(-score, -size, name_norm or name, p)`.  The trailing candidate record
mirrors the raw dict that Python appends to the tuple. -/
def portKeyOf (qNorm qLocode : String) (qTokens : List String)
    (isLocodeQuery : Bool) (p : PortRec) : Int × Int × String × PortRec :=
  let name := portNameOf p
  let nameNorm := asciiNorm name
  (-(portScore qNorm qLocode qTokens isLocodeQuery p), -(portSizeOf p),
   if nameNorm ≠ "" then nameNorm else name, p)

/-- The carrier match score of `_rank_carriers.extract`.  Unlike ports,
`startswith` does not strip noise prefixes. -/
def carrierScore (qNorm qScac : String) (qTokens : List String)
    (isScacQuery : Bool) (c : CarrierRec) : Int :=
  let name := carrierNameOf c
  let scac := carrierScacOf c
  let nameNorm := asciiNorm name
  let scacUp := strUpper (alnumOnly scac)
  let nameTokens := pyTokens name
  let exactScac := exactCodeFeature qScac scacUp
  let exactName := exactNameFeature qNorm nameNorm
  let startswith := pyStartsWith nameNorm qNorm
  let tokenContains := !qTokens.isEmpty &&
    qTokens.all (fun tok => nameTokens.any (fun t => pyStartsWith t tok || t = tok))
  let contains := tokenContains || strIn qNorm nameNorm
  if isScacQuery then
    if exactScac then 4
    else if exactName then 3
    else if startswith then 2
    else if contains then 1
    else 0
  else
    if exactName then 4
    else if startswith then 3
    else if contains then 2
    else if exactScac then 1
    else 0

/-- The sorting key of `_rank_carriers.extract`: `(-score, name_norm or name, c)`
— no size component. -/
def carrierKeyOf (qNorm qScac : String) (qTokens : List String)
    (isScacQuery : Bool) (c : CarrierRec) : Int × String × CarrierRec :=
  let name := carrierNameOf c
  let nameNorm := asciiNorm name
  (-(carrierScore qNorm qScac qTokens isScacQuery c),
   if nameNorm ≠ "" then nameNorm else name, c)

/-- Python `<` on two port key tuples: scalar components are compared
lexicographically; if all scalars tie, comparing the two dicts raises
`TypeError` unless they are equal (equal tuples compare as not-less). -/
def portTupLt (x y : Int × Int × String × PortRec) : Except PyExc Bool :=
  if x.1 ≠ y.1 then .ok (decide (x.1 < y.1))
  else if x.2.1 ≠ y.2.1 then .ok (decide (x.2.1 < y.2.1))
  else if x.2.2.1 ≠ y.2.2.1 then .ok (decide (x.2.2.1 < y.2.2.1))
  else if x.2.2.2 = y.2.2.2 then .ok false
  else .error .typeError

/-- Python `<` on two carrier key tuples. -/
def carrierTupLt (x y : Int × String × CarrierRec) : Except PyExc Bool :=
  if x.1 ≠ y.1 then .ok (decide (x.1 < y.1))
  else if x.2.1 ≠ y.2.1 then .ok (decide (x.2.1 < y.2.1))
  else if x.2.2 = y.2.2 then .ok false
  else .error .typeError

/-- `_rank_ports`: empty list returns the empty record (modelled `none`);
otherwise build the key tuples, sort them, and return the record of the first
tuple.  A `TypeError` raised by the sort propagates. -/
def rankPorts (ports : List PortRec) (query : String) (isLocodeQuery : Bool) :
    Except PyExc (Option PortRec) :=
  if ports.isEmpty then .ok none
  else do
    let qNorm := asciiNorm query
    let qLocode := strUpper (alnumOnly query)
    let qTokens := pyTokens query
    let ranked := ports.map (portKeyOf qNorm qLocode qTokens isLocodeQuery)
    let sorted ← pySort portTupLt ranked
    match sorted with
    | [] => .ok none
    | k :: _ => .ok (some k.2.2.2)

/-- `_rank_carriers`: as `rankPorts` but with the size-free carrier key. -/
def rankCarriers (carriers : List CarrierRec) (query : String) (isScacQuery : Bool) :
    Except PyExc (Option CarrierRec) :=
  if carriers.isEmpty then .ok none
  else do
    let qNorm := asciiNorm query
    let qScac := strUpper (alnumOnly query)
    let qTokens := pyTokens query
    let ranked := carriers.map (carrierKeyOf qNorm qScac qTokens isScacQuery)
    let sorted ← pySort carrierTupLt ranked
    match sorted with
    | [] => .ok none
    | k :: _ => .ok (some k.2.2)

/-- The query parameters of an upstream search request
(`{"locode": code}` or `{"query": text}`). -/
inductive Req where
  | locodeParam (s : String)
  | queryParam (s : String)
deriving DecidableEq, Repr

/-- The envelope shapes a search response can decode to: a bare array, an
object with `results`, a single bare object carrying one of the probe keys of
the corresponding resolver, or anything else (which yields no candidates). -/
inductive RespShape (ρ : Type) where
  | arr (l : List ρ)
  | results (l : List ρ)
  | single (r : ρ)
  | other
deriving DecidableEq, Repr

/-- `resolve_port`'s candidate-list extraction from the first response. -/
def portsListOf : RespShape PortRec → List PortRec
  | .arr l => l
  | .results l => l
  | .single r => [r]
  | .other => []

/-- `resolve_port`'s candidate-list extraction from the fallback response:
only the bare-array and `results` shapes are recognised there. -/
def fallbackListOf : RespShape PortRec → List PortRec
  | .arr l => l
  | .results l => l
  | _ => []

/-- `resolve_carrier`'s candidate-list extraction. -/
def carriersListOf : RespShape CarrierRec → List CarrierRec
  | .arr l => l
  | .results l => l
  | .single r => [r]
  | .other => []

/-- The canonical port record `{name, locode, country}`. -/
structure Port3 where
  name : String
  locode : String
  country : String
deriving DecidableEq, Repr

/-- The canonical carrier record `{name, scac, id}`. -/
structure Carrier3 where
  name : String
  scac : String
  id : String
deriving DecidableEq, Repr

/-- `_port_name` applied to the ranked best port (the empty dict that
`_rank_ports` returns for an empty list extracts to `""`). -/
def portNameOfBest : Option PortRec → String
  | some p => portNameOf p
  | none => ""

/-- `_port_locode` on the ranked best port. -/
def portLocodeOfBest : Option PortRec → String
  | some p => portLocodeOf p
  | none => ""

/-- `_port_country` on the ranked best port. -/
def portCountryOfBest : Option PortRec → String
  | some p => portCountryOf p
  | none => ""

/-- `_carrier_name` on the ranked best carrier. -/
def carrierNameOfBest : Option CarrierRec → String
  | some c => carrierNameOf c
  | none => ""

/-- `_carrier_scac` on the ranked best carrier. -/
def carrierScacOfBest : Option CarrierRec → String
  | some c => carrierScacOf c
  | none => ""

/-- `_carrier_id` on the ranked best carrier. -/
def carrierIdOfBest : Option CarrierRec → String
  | some c => carrierIdOf c
  | none => ""

/-- The upstream responses available to one `resolve_port` call: the decoded
first response (or the exception its request raises) and likewise for the
optional fallback request. -/
structure PortEnv where
  first : Except PyExc (RespShape PortRec)
  fallback : Except PyExc (RespShape PortRec)
deriving Repr

/-- The candidate list the fallback request contributes: empty when the
request raises (the bare `except: pass` swallows it) or when its shape is
not a bare array or `results` object. -/
def fallbackCandidates (env : PortEnv) : List PortRec :=
  match env.fallback with
  | .ok sh => fallbackListOf sh
  | .error _ => []

/-- `resolve_port`, returning the list of upstream requests issued (in order)
together with the outcome.  The query is reduced to alphanumerics and
uppercased; a LOCODE-shaped query searches by `{locode: code}`, otherwise by
`{query: original}`.  If the candidate list is empty and the query was
LOCODE-shaped, one fallback request with `{query: original}` is issued, any
exception of which is swallowed; an empty final list raises `ValueError`. -/
def resolvePort (env : PortEnv) (q : String) :
    List Req × Except PyExc Port3 :=
  let cleanQ := strUpper (alnumOnly q)
  let isLoc := isLocodeForm cleanQ
  let params := if isLoc then Req.locodeParam cleanQ else Req.queryParam q
  match env.first with
  | .error e => ([params], .error e)
  | .ok shape =>
    let pl := portsListOf shape
    let ep :=
      if pl.isEmpty && isLoc then
        match env.fallback with
        | .error _ => ([Req.queryParam q], pl)
        | .ok sh2 => ([Req.queryParam q], fallbackListOf sh2)
      else ([], pl)
    (params :: ep.1,
     if ep.2.isEmpty then
       .error (.valueError ("No port found for query: " ++ q))
     else
       match rankPorts ep.2 q isLoc with
       | .error e => .error e
       | .ok best =>
         .ok ⟨portNameOfBest best, portLocodeOfBest best, portCountryOfBest best⟩)

/-- One carrier cache entry: canonical record and insertion time
(`time.time()` modelled in whole seconds). -/
abbrev CarrierCache := List (String × Carrier3 × Int)

/-- Python dict lookup on the assoc-list cache model. -/
def cacheLookup (k : String) : CarrierCache → Option (Carrier3 × Int)
  | [] => none
  | (k', v) :: rest => if k' = k then some v else cacheLookup k rest

/-- Python `del cache[key]`. -/
def cacheErase (k : String) : CarrierCache → CarrierCache
  | [] => []
  | (k', v) :: rest => if k' = k then rest else (k', v) :: cacheErase k rest

/-- Python `cache[key] = value` (replace or append). -/
def cacheInsert (k : String) (v : Carrier3 × Int) : CarrierCache → CarrierCache
  | [] => [(k, v)]
  | (k', v') :: rest =>
    if k' = k then (k, v) :: rest else (k', v') :: cacheInsert k v rest

/-- The cache-miss path of `resolve_carrier`: call the search endpoint with
`{query: original}` (no fallback retry), raise `ValueError` on an empty
candidate list, else rank, map, and store the result in the cache at the
normalized key with the current time. -/
def resolveCarrierFresh (cache : CarrierCache) (now : Int)
    (resp : Except PyExc (RespShape CarrierRec)) (q : String) :
    List Req × Except PyExc Carrier3 × CarrierCache :=
  let key := asciiNorm q
  let cleanQ := strUpper (alnumOnly q)
  let isScac := isScacForm cleanQ
  match resp with
  | .error e => ([Req.queryParam q], .error e, cache)
  | .ok shape =>
    let cs := carriersListOf shape
    if cs.isEmpty then
      ([Req.queryParam q], .error (.valueError ("No carrier found for query: " ++ q)), cache)
    else
      match rankCarriers cs q isScac with
      | .error e => ([Req.queryParam q], .error e, cache)
      | .ok best =>
        let r : Carrier3 :=
          ⟨carrierNameOfBest best, carrierScacOfBest best, carrierIdOfBest best⟩
        ([Req.queryParam q], .ok r, cacheInsert key (r, now) cache)

/-- `resolve_carrier`: check the in-memory cache first, keyed by the
normalized query.  A cached entry younger than 300 seconds is returned with
no upstream request; an entry aged `now - insertedAt >= 300` is deleted and
the call proceeds as a cache miss. -/
def resolveCarrier (cache : CarrierCache) (now : Int)
    (resp : Except PyExc (RespShape CarrierRec)) (q : String) :
    List Req × Except PyExc Carrier3 × CarrierCache :=
  let key := asciiNorm q
  match cacheLookup key cache with
  | some (res, t) =>
    if now - t < 300 then ([], .ok res, cache)
    else resolveCarrierFresh (cacheErase key cache) now resp q
  | none => resolveCarrierFresh cache now resp q

/-- Gregorian leap year. -/
def isLeapYear (y : Nat) : Bool :=
  y % 4 = 0 && (y % 100 ≠ 0 || y % 400 = 0)

/-- Days in a month, `m` between 1 and 12. -/
def daysInMonth (y m : Nat) : Nat :=
  if m = 2 then (if isLeapYear y then 29 else 28)
  else if m = 4 || m = 6 || m = 9 || m = 11 then 30
  else 31

/-- Day count of a civil date from a fixed epoch (0000-03-01), valid for
`y ≥ 1`; only differences of the values are used. -/
def daysFromCivil (y m d : Nat) : Nat :=
  let y' := if m ≤ 2 then y - 1 else y
  let era := y' / 400
  let yoe := y' % 400
  let mp := (m + 9) % 12
  let doy := (153 * mp + 2) / 5 + d - 1
  let doe := yoe * 365 + yoe / 4 - yoe / 100 + doy
  era * 146097 + doe

/-- Read exactly `n` decimal digits off the front of a char list. -/
def readDigits : Nat → List Char → Option (Nat × List Char)
  | 0, l => some (0, l)
  | _ + 1, [] => none
  | n + 1, c :: cs =>
    if pyIsDigit c then
      match readDigits n cs with
      | some (v, rest) => some ((c.toNat - '0'.toNat) * 10 ^ n + v, rest)
      | none => none
    else none

/-- Parse `HH:MM` or `HH:MM:SS` into seconds past midnight (Python's range
checks applied). -/
def readTime (l : List Char) : Option (Nat × List Char) :=
  match readDigits 2 l with
  | some (h, ':' :: l1) =>
    match readDigits 2 l1 with
    | some (mi, l2) =>
      if h < 24 ∧ mi < 60 then
        match l2 with
        | ':' :: l3 =>
          match readDigits 2 l3 with
          | some (s, l4) => if s < 60 then some (h * 3600 + mi * 60 + s, l4) else none
          | none => none
        | _ => some (h * 3600 + mi * 60, l2)
      else none
    | none => none
  | _ => none

/-- Parse a `±HH:MM` UTC offset into signed seconds. -/
def readOffset (l : List Char) : Option (Int × List Char) :=
  match l with
  | '+' :: rest =>
    match readTime rest with
    | some (secs, l') => some ((secs : Int), l')
    | none => none
  | '-' :: rest =>
    match readTime rest with
    | some (secs, l') => some (-(secs : Int), l')
    | none => none
  | _ => none

/-- The fragment of `datetime.fromisoformat` exercised here:
`YYYY-MM-DD[<sep>HH:MM[:SS][±HH:MM]]` (any single separator character, as in
the pre-3.11 parser; fractional seconds are not modelled).  Returns the
timestamp in seconds from a fixed epoch together with an awareness flag
(`true` when a UTC offset was present). -/
def pyParseIso (s : String) : Option (Int × Bool) :=
  match readDigits 4 s.data with
  | some (y, '-' :: l1) =>
    (match readDigits 2 l1 with
     | some (m, '-' :: l2) =>
       (match readDigits 2 l2 with
        | some (d, l3) =>
          if 1 ≤ m ∧ m ≤ 12 ∧ 1 ≤ d ∧ d ≤ daysInMonth y m ∧ 1 ≤ y then
            let base : Int := (daysFromCivil y m d : Int) * 86400
            match l3 with
            | [] => some (base, false)
            | _ :: l4 =>
              (match readTime l4 with
               | some (secs, l5) =>
                 (match l5 with
                  | [] => some (base + secs, false)
                  | _ =>
                    match readOffset l5 with
                    | some (off, []) => some (base + secs - off, true)
                    | _ => none)
               | none => none)
          else none
        | _ => none)
     | _ => none)
  | _ => none

/-- `ceil(n / d)` for integer `n` and positive integer `d`, as Python's
`math.ceil` computes on the exact quotient. -/
def intCeilDiv (n : Int) (d : Nat) : Int :=
  Int.fdiv (n + d - 1) d

/-- The transit-days computation of `_map_single_itinerary`:
`ceil((eta - etd).total_seconds() / 86400)` after `fromisoformat` with `Z`
replaced by `+00:00`; any parse failure, or subtracting a naive from an
aware datetime (Python `TypeError`), yields 0 via the bare `except`. -/
def transitCalc (etd eta : String) : Int :=
  match pyParseIso (pyReplace etd "Z" "+00:00"), pyParseIso (pyReplace eta "Z" "+00:00") with
  | some (t1, aw1), some (t2, aw2) =>
    if aw1 = aw2 then intCeilDiv (t2 - t1) 86400 else 0
  | _, _ => 0

/-- A raw upstream itinerary leg, over the key aliases the mapper probes. -/
structure Leg where
  departure : Option String := none
  etd : Option String := none
  departureTime : Option String := none
  arrival : Option String := none
  eta : Option String := none
  arrivalTime : Option String := none
  vessel : Option String := none
  vesselName : Option String := none
  voyage : Option String := none
  voyageNumber : Option String := none
  carrier : Option String := none
  carrierName : Option String := none
  imo : Option String := none
  vesselImo : Option String := none
  fromLocode : Option String := none
  originLocode : Option String := none
  fromPort : Option String := none
  originPort : Option String := none
  toLocode : Option String := none
  destinationLocode : Option String := none
  toPort : Option String := none
  destinationPort : Option String := none
  transitDays : Option Int := none
deriving DecidableEq, Repr

/-- A raw upstream itinerary.  The leg list may live under `legs`, `route`
or `segments`; `none`/empty lists are falsy in the `or` chain. -/
structure Itin where
  legs : Option (List Leg) := none
  route : Option (List Leg) := none
  segments : Option (List Leg) := none
  transitDays : Option Int := none
  vessel : Option String := none
  voyage : Option String := none
  carrier : Option String := none
  imo : Option String := none
  service : Option String := none
  serviceName : Option String := none
  id : Option String := none
deriving DecidableEq, Repr

/-- First truthy (nonempty) leg list in the `legs or route or segments or []`
chain. -/
def pyOrLegs : List (Option (List Leg)) → List Leg
  | [] => []
  | o :: rest =>
    match o with
    | some l => if l.isEmpty then pyOrLegs rest else l
    | none => pyOrLegs rest

/-- `legs_data = itinerary.get("legs") or itinerary.get("route") or
itinerary.get("segments") or []`. -/
def legsOf (itin : Itin) : List Leg :=
  pyOrLegs [itin.legs, itin.route, itin.segments]

/-- Python `a or b or c` over optional strings where the last operand is
returned as-is when nothing is truthy (used for `imo`). -/
def pyOrOpt3 (a b c : Option String) : Option String :=
  if optTruthy a then a else if optTruthy b then b else c

/-- Python `a or b` over optional strings (used for `service`). -/
def pyOrOpt2 (a b : Option String) : Option String :=
  if optTruthy a then a else b

/-- `ScheduleLeg` as declared in `app/models/schedule.py`. -/
structure SchedLeg where
  legNumber : Nat
  fromLocode : String
  fromPort : String
  toLocode : String
  toPort : String
  etd : String
  eta : String
  vessel : String
  voyage : String
  transitDays : Int
deriving DecidableEq, Repr

/-- The keyword-argument set `_map_single_itinerary` passes to the
`Schedule(...)` constructor, which coincides with the field schema of
`app/models/schedule.py` (`equipment` and `hash` are never passed and are
omitted).  The name bound at the constructor call is, however, the scaffold
`Schedule` of `providers/base.py` (imported at `searoutes.py:15`), which has
no `imo`, `service` or `legs` fields; pydantic's default `extra='ignore'`
silently drops those three keywords — see `BaseSchedule` and
`baseScheduleOfKwargs` for the object the program actually builds. -/
structure Sched where
  id : String
  origin : String
  destination : String
  etd : String
  eta : String
  vessel : String
  voyage : String
  imo : Option String
  routingType : String
  transitDays : Int
  carrier : String
  service : Option String
  legs : Option (List SchedLeg)
deriving DecidableEq, Repr

/-- The `Schedule` declared in `providers/base.py` — the class the provider
module imports and instantiates: `id, origin, destination, etd, eta, vessel,
voyage, routingType, transitDays, carrier` and nothing else. -/
structure BaseSchedule where
  id : String
  origin : String
  destination : String
  etd : String
  eta : String
  vessel : String
  voyage : String
  routingType : String
  transitDays : Int
  carrier : String
deriving DecidableEq, Repr

/-- Pydantic's constructor under the default `extra='ignore'`: the keyword
arguments matching `BaseSchedule`'s declared fields are kept, the extra
`imo`, `service` and `legs` keywords are silently dropped. -/
def baseScheduleOfKwargs (kw : Sched) : BaseSchedule :=
  { id := kw.id, origin := kw.origin, destination := kw.destination,
    etd := kw.etd, eta := kw.eta, vessel := kw.vessel, voyage := kw.voyage,
    routingType := kw.routingType, transitDays := kw.transitDays,
    carrier := kw.carrier }

/-- Deterministic stand-in for `str(uuid4())` (no claim inspects `id`). -/
def uuidPlaceholder : String := "uuid4"

/-- `leg.get("departure") or leg.get("etd") or leg.get("departureTime")`,
with the trailing `or ""` / `if not etd` treating the all-falsy case as `""`. -/
def legEtdStr (leg : Leg) : String :=
  pyFirstStr [leg.departure, leg.etd, leg.departureTime]

/-- `leg.get("arrival") or leg.get("eta") or leg.get("arrivalTime")`. -/
def legEtaStr (leg : Leg) : String :=
  pyFirstStr [leg.arrival, leg.eta, leg.arrivalTime]

/-- The overall departure timestamp of an itinerary: the first leg's
departure chain (empty when there are no legs). -/
def itinEtd (itin : Itin) : String :=
  match legsOf itin with
  | [] => ""
  | fl :: _ => legEtdStr fl

/-- The overall arrival timestamp: the last leg's arrival chain. -/
def itinEta (itin : Itin) : String :=
  match legsOf itin with
  | [] => ""
  | fl :: rest => legEtaStr ((fl :: rest).getLast (List.cons_ne_nil _ _))

/-- The schedule-level transit days: the upstream value when present and
truthy (nonzero), else the computed `transitCalc`. -/
def itinTransitDays (itin : Itin) (etd eta : String) : Int :=
  match itin.transitDays with
  | some t => if t ≠ 0 then t else transitCalc etd eta
  | none => transitCalc etd eta

/-- The per-leg mapping in `_map_single_itinerary`'s loop, with `i` the
0-based position and the itinerary-level vessel/voyage as fallbacks. -/
def mapLeg (outerVessel outerVoyage : String) (i : Nat) (leg : Leg) : SchedLeg :=
  let legEtd := legEtdStr leg
  let legEta := legEtaStr leg
  let lt0 := leg.transitDays.getD 0
  let legTransit :=
    if lt0 = 0 ∧ legEtd ≠ "" ∧ legEta ≠ "" then transitCalc legEtd legEta else lt0
  { legNumber := i + 1,
    fromLocode := pyFirstStr [leg.fromLocode, leg.originLocode],
    fromPort := pyFirstStr [leg.fromPort, leg.originPort],
    toLocode := pyFirstStr [leg.toLocode, leg.destinationLocode],
    toPort := pyFirstStr [leg.toPort, leg.destinationPort],
    etd := legEtdStr leg,
    eta := legEtaStr leg,
    vessel := if optTruthy leg.vessel then leg.vessel.getD ""
      else if optTruthy leg.vesselName then leg.vesselName.getD "" else outerVessel,
    voyage := if optTruthy leg.voyage then leg.voyage.getD ""
      else if optTruthy leg.voyageNumber then leg.voyageNumber.getD "" else outerVoyage,
    transitDays := legTransit }

/-- `first_leg.get("vessel") or first_leg.get("vesselName") or
itinerary.get("vessel") or ""`. -/
def itinVessel (itin : Itin) (fl : Leg) : String :=
  pyFirstStr [fl.vessel, fl.vesselName, itin.vessel]

/-- `first_leg.get("voyage") or first_leg.get("voyageNumber") or
itinerary.get("voyage") or ""`. -/
def itinVoyage (itin : Itin) (fl : Leg) : String :=
  pyFirstStr [fl.voyage, fl.voyageNumber, itin.voyage]

/-- The success path of `_map_single_itinerary`, for a nonempty extracted
leg list `fl :: rest` with truthy first-departure/last-arrival timestamps. -/
def buildSched (itin : Itin) (op dp : Option Port3) (fl : Leg) (rest : List Leg) : Sched :=
  let L := fl :: rest
  let ll := L.getLast (List.cons_ne_nil _ _)
  let etd := legEtdStr fl
  let eta := legEtaStr ll
  let routingType := if L.length = 1 then "Direct" else "Transshipment"
  let transitDays := itinTransitDays itin etd eta
  let vessel := itinVessel itin fl
  let voyage := itinVoyage itin fl
  let carrier := pyFirstStr [fl.carrier, fl.carrierName, itin.carrier]
  let imo := pyOrOpt3 fl.imo fl.vesselImo itin.imo
  let service := pyOrOpt2 itin.service itin.serviceName
  let origin :=
    match op with
    | some p => p.name ++ ", " ++ p.country
    | none => if optTruthy fl.fromPort then fl.fromPort.getD "" else ""
  let destination :=
    match dp with
    | some p => p.name ++ ", " ++ p.country
    | none => if optTruthy ll.toPort then ll.toPort.getD "" else ""
  let mappedLegs := L.enum.map (fun p => mapLeg vessel voyage p.1 p.2)
  { id := if optTruthy itin.id then itin.id.getD "" else uuidPlaceholder,
    origin := origin, destination := destination, etd := etd, eta := eta,
    vessel := vessel, voyage := voyage, imo := imo,
    routingType := routingType, transitDays := transitDays,
    carrier := carrier, service := service,
    legs := if mappedLegs.length > 1 then some mappedLegs else none }

/-- `_map_single_itinerary`: reject an itinerary with no legs or missing
first-departure/last-arrival timestamps; otherwise derive routing type,
transit days, header fields and the per-leg breakdown (attached only when
there are at least two mapped legs). -/
def mapSingleItinerary (itin : Itin) (op dp : Option Port3) : Option Sched :=
  match legsOf itin with
  | [] => none
  | fl :: rest =>
    let etd := legEtdStr fl
    let eta := legEtaStr ((fl :: rest).getLast (List.cons_ne_nil _ _))
    if etd = "" ∨ eta = "" then none
    else some (buildSched itin op dp fl rest)

/-- The `Schedule` object `_map_single_itinerary` actually returns: the
keyword arguments above fed through the scaffold `providers/base.py`
constructor, which ignores the `imo`, `service` and `legs` keywords. -/
def mapSingleItineraryBase (itin : Itin) (op dp : Option Port3) : Option BaseSchedule :=
  (mapSingleItinerary itin op dp).map baseScheduleOfKwargs

/-- `_map_itineraries_to_schedules` over an already-extracted itinerary
list: itineraries that map to nothing are skipped, the rest are kept in
order (per-itinerary mapping exceptions cannot arise in this total model). -/
def mapItineraries (itins : List Itin) (op dp : Option Port3) : List Sched :=
  itins.filterMap (fun it => mapSingleItinerary it op dp)

/-- The schedule filter, with the field set the provider's `list` accesses
(`origin`, `destination`, `date_from`, `date_to`, `routingType`, `carrier`,
`equipment`, `sort` — the last two as in the richer filter revision the
provider code is written against). -/
structure Filt where
  origin : Option String := none
  destination : Option String := none
  date_from : Option String := none
  date_to : Option String := none
  routingType : Option String := none
  carrier : Option String := none
  equipment : Option String := none
  sort : Option String := none
deriving DecidableEq, Repr

/-- Pagination parameters; the success path of `list` returns a page object
additionally carrying `total`, the early not-found return passes the input
page through unchanged (`total = none`).  Pagination is modelled for
`page ≥ 1`. -/
structure PageM where
  page : Nat := 1
  pageSize : Nat := 25
  total : Option Nat := none
deriving DecidableEq, Repr

/-- The query parameters `list` sends to `/itinerary/v2/execution`. -/
structure ExecParams where
  fromLocode : Option String := none
  toLocode : Option String := none
  carrierScac : Option String := none
  fromDate : Option String := none
  toDate : Option String := none
deriving DecidableEq, Repr

/-- `_apply_filters`: the equipment filter is an explicit pass-through in the
source; the routingType filter compares case-insensitively when the filter
value is truthy. -/
def applyFilters (flt : Filt) (ss : List Sched) : List Sched :=
  if optTruthy flt.routingType then
    ss.filter (fun s => strLower s.routingType = strLower (flt.routingType.getD ""))
  else ss

/-- Stable insertion (no exceptions): `x` goes before the first element it is
strictly below, matching Python's stable `sorted`. -/
def pyInsertTotal (lt : α → α → Bool) (x : α) : List α → List α
  | [] => [x]
  | a :: l => if lt x a then x :: a :: l else a :: pyInsertTotal lt x l

/-- Python `sorted` with a total key comparison. -/
def pySortTotal (lt : α → α → Bool) (l : List α) : List α :=
  l.foldl (fun acc x => pyInsertTotal lt x acc) []

/-- `_apply_sorting`: sort by `transitDays` when the sort field is
`"transit"`, else by the `etd` string. -/
def applySorting (sortField : String) (ss : List Sched) : List Sched :=
  if sortField = "transit" then
    pySortTotal (fun a b => decide (a.transitDays < b.transitDays)) ss
  else
    pySortTotal (fun a b => decide (a.etd < b.etd)) ss

/-- The three-way outcome of resolving one side (origin or destination):
a resolved port (or `none` when no query was given), the early empty-result
return, or a propagating exception. -/
inductive SideStep (α : Type) where
  | val (a : Option α)
  | earlyEmpty
  | exc (e : PyExc)
deriving Repr

/-- Origin/destination resolution step of `list`: `SearoutesError` re-raises,
`ValueError` (port not found) triggers the early `return [], page`, any other
exception propagates to the outer handler; an untruthy filter value skips
resolution. -/
def resolveSide (rp : String → Except PyExc Port3) (o : Option String) : SideStep Port3 :=
  if optTruthy o then
    match rp (o.getD "") with
    | .ok p => .val (some p)
    | .error (.valueError _) => .earlyEmpty
    | .error e => .exc e
  else .val none

/-- The body of `SearoutesProvider.list`, with the outcomes of
`resolve_port` / `resolve_carrier` and of the itinerary request supplied as
oracles (`rp`, `rc`, `ex`).  Carrier `ValueError` is absorbed and the filter
dropped; the itinerary response is modelled as the already-extracted
itinerary list. -/
def listBody (rp : String → Except PyExc Port3) (rc : String → Except PyExc Carrier3)
    (ex : ExecParams → Except PyExc (List Itin)) (flt : Filt) (pg : PageM) :
    Except PyExc (List Sched × PageM) :=
  match resolveSide rp flt.origin with
  | .earlyEmpty => .ok ([], pg)
  | .exc e => .error e
  | .val originPort =>
    match resolveSide rp flt.destination with
    | .earlyEmpty => .ok ([], pg)
    | .exc e => .error e
    | .val destinationPort =>
      let carrierStep : Except PyExc (Option String) :=
        if optTruthy flt.carrier then
          match rc (flt.carrier.getD "") with
          | .ok ci => .ok (some ci.scac)
          | .error (.valueError _) => .ok none
          | .error e => .error e
        else .ok none
      match carrierStep with
      | .error e => .error e
      | .ok carrierScacRaw =>
        let carrierScac :=
          match carrierScacRaw with
          | some s => if s ≠ "" then some s else none
          | none => none
        let params : ExecParams :=
          { fromLocode := originPort.map (·.locode),
            toLocode := destinationPort.map (·.locode),
            carrierScac := carrierScac,
            fromDate := if optTruthy flt.date_from then flt.date_from else none,
            toDate := if optTruthy flt.date_to then flt.date_to else none }
        match ex params with
        | .error e => .error e
        | .ok itins =>
          let schedules := mapItineraries itins originPort destinationPort
          let filtered := applyFilters flt schedules
          let sortField := if optTruthy flt.sort then flt.sort.getD "" else "etd"
          let sortedS := applySorting sortField filtered
          let total := sortedS.length
          let startIdx := (pg.page - 1) * pg.pageSize
          let paginated := (sortedS.drop startIdx).take pg.pageSize
          .ok (paginated, { page := pg.page, pageSize := pg.pageSize, total := some total })

/-- `SearoutesProvider.list`: the body wrapped in the outer handler, which
re-raises `SearoutesError` unchanged and wraps every other exception in a
generic `SearoutesError("Unexpected error: ...")`. -/
def searoutesList (rp : String → Except PyExc Port3) (rc : String → Except PyExc Carrier3)
    (ex : ExecParams → Except PyExc (List Itin)) (flt : Filt) (pg : PageM) :
    Except PyExc (List Sched × PageM) :=
  match listBody rp rc ex flt pg with
  | .ok r => .ok r
  | .error (.searoutes m) => .error (.searoutes m)
  | .error (.valueError m) => .error (.searoutes ("Unexpected error: " ++ m))
  | .error .typeError => .error (.searoutes "Unexpected error: TypeError")
  | .error (.otherExc m) => .error (.searoutes ("Unexpected error: " ++ m))

/-- The specified port ordering: ascending lexicographic comparison of the
scalar prefix `(-score, -size, name)` of the sort key. -/
def portKeyLe (x y : Int × Int × String × PortRec) : Prop :=
  x.1 < y.1 ∨ (x.1 = y.1 ∧ (x.2.1 < y.2.1 ∨ (x.2.1 = y.2.1 ∧ x.2.2.1 ≤ y.2.2.1)))

/-- The specified carrier ordering: ascending lexicographic comparison of
`(-score, name)` — no size component. -/
def carrierKeyLe (x y : Int × String × CarrierRec) : Prop :=
  x.1 < y.1 ∨ (x.1 = y.1 ∧ x.2.1 ≤ y.2.1)

/-- The `exact_locode` feature of a candidate: extracted LOCODE,
alphanumeric-only and uppercased, nonempty and equal to the (nonempty)
query code. -/
def portExactCode (qLocode : String) (p : PortRec) : Bool :=
  exactCodeFeature qLocode (strUpper (alnumOnly (portLocodeOf p)))

/-- The candidate list of the `"EGALY"` ranking scenario. -/
def egAlexandriaDam : PortRec :=
  { name := some "Alexandria", locode := some "EGDAM", country := some "EG", size := some 100 }

/-- Second candidate of the `"EGALY"` scenario. -/
def egPortSaid : PortRec :=
  { name := some "Port Said", locode := some "EGPSD", country := some "EG", size := some 200 }

/-- The exact-LOCODE candidate of the `"EGALY"` scenario. -/
def egAlexandriaAly : PortRec :=
  { name := some "Alexandria", locode := some "EGALY", country := some "EG", size := some 150 }

/-- Two candidates that tie on score, size and normalized name while being
distinct records (their key tuples differ only in the trailing dict). -/
def dupPortSaidA : PortRec :=
  { name := some "Port Said", locode := some "EGDAM", size := some 200 }

/-- Second member of the tied pair. -/
def dupPortSaidB : PortRec :=
  { name := some "Port Said", locode := some "EGPSD", size := some 200 }

/-- Tied pair for the `_rank_ports` crash evaluation: same name, same
(absent) size, different locodes. -/
def dupAlexA : PortRec := { name := some "Alexandria", locode := some "EGALY" }

/-- Second member. -/
def dupAlexB : PortRec := { name := some "Alexandria", locode := some "EGDAM" }

/-- Tied carrier pair: same name, different SCACs. -/
def dupCarrierA : CarrierRec := { name := some "Maersk", scac := some "MAEU" }

/-- Second member. -/
def dupCarrierB : CarrierRec := { name := some "Maersk", scac := some "MSKU" }

/-- A candidate whose name is the compact code string `"egpsd"`. -/
def nameCompact : PortRec := { name := some "egpsd", locode := some "XXAAA" }

/-- A candidate whose name is the dashed code string `"eg-psd"`. -/
def nameDashed : PortRec := { name := some "eg-psd", locode := some "XXBBB" }

/-- An upstream environment returning the two name-variant candidates for
the first request, with an unusable fallback. -/
def envDashCompact : PortEnv :=
  { first := .ok (.arr [nameCompact, nameDashed]), fallback := .ok .other }

/-- An upstream environment whose candidate list contains exactly one
record with LOCODE `EGALY`. -/
def envUnique : PortEnv :=
  { first := .ok (.arr [egPortSaid, egAlexandriaAly]), fallback := .ok .other }

/-- One-leg itinerary whose arrival precedes its departure by 2.5 days. -/
def negTransitItin : Itin :=
  { legs := some [{ departure := some "2025-08-22T12:00:00Z",
                    arrival := some "2025-08-20T00:00:00Z" }],
    id := some "N1" }

/-- One-leg itinerary spanning 2.5 days, the `ceil` example of the spec. -/
def posTransitItin : Itin :=
  { legs := some [{ departure := some "2025-08-20T00:00:00Z",
                    arrival := some "2025-08-22T12:00:00Z" }],
    id := some "P1" }

/-- A two-leg itinerary used to exercise the leg breakdown. -/
def twoLegItin : Itin :=
  { legs := some [{ departure := some "2025-08-20T00:00:00Z",
                    arrival := some "2025-08-21T00:00:00Z",
                    fromLocode := some "EGALY", toLocode := some "MATNG",
                    vessel := some "V1" },
                  { departure := some "2025-08-21T06:00:00Z",
                    arrival := some "2025-08-22T12:00:00Z",
                    fromLocode := some "MATNG", toLocode := some "NLRTM" }],
    id := some "I2", vessel := some "VOUT" }

/-- A resolver oracle for the `list` witnesses: origin `"NOPE"` and
destination `"GONE"` are not found, `"EGALY"` resolves, `"BOOM"` raises an
upstream error. -/
def rpW (q : String) : Except PyExc Port3 :=
  if q = "NOPE" ∨ q = "GONE" then .error (.valueError "No port found")
  else if q = "BOOM" then .error (.searoutes "HTTP_502")
  else .ok ⟨"Alexandria", "EGALY", "EG"⟩

/-- Carrier oracle: `"NADA"` is not found, everything else resolves. -/
def rcW (q : String) : Except PyExc Carrier3 :=
  if q = "NADA" then .error (.valueError "No carrier found")
  else .ok ⟨"Maersk Line", "MAEU", "1"⟩

/-- Itinerary oracle for the `list` witnesses: always one two-leg
itinerary. -/
def exW (_ : ExecParams) : Except PyExc (List Itin) :=
  .ok [twoLegItin]

variable {α : Type} {lt : α → α → Except PyExc Bool} {le : α → α → Prop}

theorem pyInsert_ok_mem (lt : α → α → Except PyExc Bool) (x : α) :
    ∀ (acc out : List α), pyInsert lt x acc = .ok out →
      ∀ z, z ∈ out ↔ z = x ∨ z ∈ acc := by
  intro acc
  induction acc with
  | nil =>
    intro out h z
    simp only [pyInsert] at h
    cases h
    simp
  | cons a l ih =>
    intro out h z
    simp only [pyInsert] at h
    cases hlt : lt x a with
    | error e => rw [hlt] at h; simp [Bind.bind, Except.bind] at h
    | ok b =>
      rw [hlt] at h
      simp only [Bind.bind, Except.bind] at h
      cases b with
      | true =>
        rw [if_pos rfl] at h
        cases h
        simp
      | false =>
        rw [if_neg (by simp)] at h
        cases hrec : pyInsert lt x l with
        | error e => rw [hrec] at h; simp [Bind.bind, Except.bind] at h
        | ok r =>
          rw [hrec] at h
          simp only [Bind.bind, Except.bind] at h
          cases h
          have hz := ih r hrec z
          simp only [List.mem_cons]
          rw [hz]
          tauto

theorem pyInsert_ok_pairwise
    (htrans : ∀ x y z, le x y → le y z → le x z)
    (hcons : ∀ x y b, lt x y = .ok b → (b = true → le x y) ∧ (b = false → le y x))
    (x : α) : ∀ (acc out : List α), acc.Pairwise le → pyInsert lt x acc = .ok out →
      out.Pairwise le := by
  intro acc
  induction acc with
  | nil =>
    intro out hp h
    simp only [pyInsert] at h
    cases h
    simp
  | cons a l ih =>
    intro out hp h
    rw [List.pairwise_cons] at hp
    simp only [pyInsert] at h
    cases hlt : lt x a with
    | error e => rw [hlt] at h; simp [Bind.bind, Except.bind] at h
    | ok b =>
      rw [hlt] at h
      simp only [Bind.bind, Except.bind] at h
      cases b with
      | true =>
        rw [if_pos rfl] at h
        cases h
        rw [List.pairwise_cons]
        refine ⟨?_, List.pairwise_cons.mpr hp⟩
        intro z hz
        rcases List.mem_cons.mp hz with h1 | h2
        · rw [h1]; exact (hcons x a true hlt).1 rfl
        · exact htrans x a z ((hcons x a true hlt).1 rfl) (hp.1 z h2)
      | false =>
        rw [if_neg (by simp)] at h
        cases hrec : pyInsert lt x l with
        | error e => rw [hrec] at h; simp [Bind.bind, Except.bind] at h
        | ok r =>
          rw [hrec] at h
          simp only [Bind.bind, Except.bind] at h
          cases h
          rw [List.pairwise_cons]
          refine ⟨?_, ih r hp.2 hrec⟩
          intro z hz
          rcases (pyInsert_ok_mem lt x l r hrec z).mp hz with h1 | h2
          · rw [h1]; exact (hcons x a false hlt).2 rfl
          · exact hp.1 z h2

theorem pySortAcc_ok
    (htrans : ∀ x y z, le x y → le y z → le x z)
    (hcons : ∀ x y b, lt x y = .ok b → (b = true → le x y) ∧ (b = false → le y x)) :
    ∀ (l acc out : List α), acc.Pairwise le → pySortAcc lt acc l = .ok out →
      out.Pairwise le ∧ (∀ z, z ∈ out ↔ z ∈ acc ∨ z ∈ l) := by
  intro l
  induction l with
  | nil =>
    intro acc out hp h
    simp only [pySortAcc] at h
    cases h
    exact ⟨hp, fun z => by simp⟩
  | cons x rest ih =>
    intro acc out hp h
    simp only [pySortAcc] at h
    cases hins : pyInsert lt x acc with
    | error e => rw [hins] at h; simp [Bind.bind, Except.bind] at h
    | ok acc' =>
      rw [hins] at h
      simp only [Bind.bind, Except.bind] at h
      have hp' := pyInsert_ok_pairwise htrans hcons x acc acc' hp hins
      have hmem := pyInsert_ok_mem lt x acc acc' hins
      obtain ⟨hpO, hmO⟩ := ih acc' out hp' h
      refine ⟨hpO, fun z => ?_⟩
      rw [hmO z, hmem z, List.mem_cons]
      tauto

theorem pySort_ok_head
    (hrefl : ∀ x, le x x)
    (htrans : ∀ x y z, le x y → le y z → le x z)
    (hcons : ∀ x y b, lt x y = .ok b → (b = true → le x y) ∧ (b = false → le y x))
    (l : List α) (r : α) (rest : List α)
    (h : pySort lt l = .ok (r :: rest)) : r ∈ l ∧ ∀ a ∈ l, le r a := by
  obtain ⟨hp, hm⟩ := pySortAcc_ok htrans hcons l [] (r :: rest) (by simp) h
  have hr : r ∈ l := by
    have := (hm r).mp (by simp)
    simpa using this
  refine ⟨hr, fun a ha => ?_⟩
  have hmem : a ∈ r :: rest := (hm a).mpr (Or.inr ha)
  rcases List.mem_cons.mp hmem with h1 | h2
  · subst h1; exact hrefl a
  · exact (List.pairwise_cons.mp hp).1 a h2

theorem pyInsert_error_typeErr
    (hltE : ∀ x y e, lt x y = .error e → e = .typeError) (x : α) :
    ∀ (acc : List α) (e : PyExc), pyInsert lt x acc = .error e → e = .typeError := by
  intro acc
  induction acc with
  | nil => intro e h; simp [pyInsert] at h
  | cons a l ih =>
    intro e h
    simp only [pyInsert] at h
    cases hlt : lt x a with
    | error e' =>
      rw [hlt] at h
      simp only [Bind.bind, Except.bind] at h
      cases h
      exact hltE x a e hlt
    | ok b =>
      rw [hlt] at h
      simp only [Bind.bind, Except.bind] at h
      cases b with
      | true => rw [if_pos rfl] at h; cases h
      | false =>
        rw [if_neg (by simp)] at h
        cases hrec : pyInsert lt x l with
        | error e' =>
          rw [hrec] at h
          simp only [Bind.bind, Except.bind] at h
          cases h
          exact ih e hrec
        | ok r =>
          rw [hrec] at h
          simp only [Bind.bind, Except.bind] at h
          cases h

theorem pySort_error_typeErr
    (hltE : ∀ x y e, lt x y = .error e → e = .typeError) :
    ∀ (l acc : List α) (e : PyExc), pySortAcc lt acc l = .error e → e = .typeError := by
  intro l
  induction l with
  | nil => intro acc e h; simp [pySortAcc] at h
  | cons x rest ih =>
    intro acc e h
    simp only [pySortAcc] at h
    cases hins : pyInsert lt x acc with
    | error e' =>
      rw [hins] at h
      simp only [Bind.bind, Except.bind] at h
      cases h
      exact pyInsert_error_typeErr hltE x acc e hins
    | ok acc' =>
      rw [hins] at h
      simp only [Bind.bind, Except.bind] at h
      exact ih acc' e h


theorem portKeyLe_refl (x : Int × Int × String × PortRec) : portKeyLe x x :=
  Or.inr ⟨rfl, Or.inr ⟨rfl, le_refl _⟩⟩

theorem portKeyLe_trans (x y z : Int × Int × String × PortRec) :
    portKeyLe x y → portKeyLe y z → portKeyLe x z := by
  rintro (h1 | ⟨e1, h1⟩) (h2 | ⟨e2, h2⟩)
  · exact Or.inl (lt_trans h1 h2)
  · exact Or.inl (e2 ▸ h1)
  · exact Or.inl (e1 ▸ h2)
  · refine Or.inr ⟨e1.trans e2, ?_⟩
    rcases h1 with h1' | ⟨f1, h1'⟩ <;> rcases h2 with h2' | ⟨f2, h2'⟩
    · exact Or.inl (lt_trans h1' h2')
    · exact Or.inl (f2 ▸ h1')
    · exact Or.inl (f1 ▸ h2')
    · exact Or.inr ⟨f1.trans f2, le_trans h1' h2'⟩

theorem carrierKeyLe_refl (x : Int × String × CarrierRec) : carrierKeyLe x x :=
  Or.inr ⟨rfl, le_refl _⟩

theorem carrierKeyLe_trans (x y z : Int × String × CarrierRec) :
    carrierKeyLe x y → carrierKeyLe y z → carrierKeyLe x z := by
  rintro (h1 | ⟨e1, h1⟩) (h2 | ⟨e2, h2⟩)
  · exact Or.inl (lt_trans h1 h2)
  · exact Or.inl (e2 ▸ h1)
  · exact Or.inl (e1 ▸ h2)
  · exact Or.inr ⟨e1.trans e2, le_trans h1 h2⟩

theorem portTupLt_cons (x y : Int × Int × String × PortRec) (b : Bool)
    (h : portTupLt x y = .ok b) :
    (b = true → portKeyLe x y) ∧ (b = false → portKeyLe y x) := by
  unfold portTupLt at h
  split_ifs at h with h1 h2 h3 h4
  · cases h
    constructor
    · intro hb
      exact Or.inl (of_decide_eq_true hb)
    · intro hb
      have hnlt := of_decide_eq_false hb
      exact Or.inl (by omega)
  · cases h
    constructor
    · intro hb
      exact Or.inr ⟨not_ne_iff.mp h1, Or.inl (of_decide_eq_true hb)⟩
    · intro hb
      have hnlt := of_decide_eq_false hb
      exact Or.inr ⟨(not_ne_iff.mp h1).symm, Or.inl (by omega)⟩
  · cases h
    constructor
    · intro hb
      exact Or.inr ⟨not_ne_iff.mp h1,
        Or.inr ⟨not_ne_iff.mp h2, le_of_lt (of_decide_eq_true hb)⟩⟩
    · intro hb
      have hnlt := of_decide_eq_false hb
      have : x.2.2.1 ≠ y.2.2.1 := h3
      exact Or.inr ⟨(not_ne_iff.mp h1).symm,
        Or.inr ⟨(not_ne_iff.mp h2).symm,
          le_of_lt (lt_of_le_of_ne (le_of_not_lt hnlt) (Ne.symm this))⟩⟩
  · cases h
    constructor
    · intro hb; cases hb
    · intro _
      exact Or.inr ⟨(not_ne_iff.mp h1).symm,
        Or.inr ⟨(not_ne_iff.mp h2).symm, le_of_eq (not_ne_iff.mp h3).symm⟩⟩

theorem portTupLt_error (x y : Int × Int × String × PortRec) (e : PyExc)
    (h : portTupLt x y = .error e) : e = .typeError := by
  unfold portTupLt at h
  split_ifs at h
  simp_all

theorem carrierTupLt_cons (x y : Int × String × CarrierRec) (b : Bool)
    (h : carrierTupLt x y = .ok b) :
    (b = true → carrierKeyLe x y) ∧ (b = false → carrierKeyLe y x) := by
  unfold carrierTupLt at h
  split_ifs at h with h1 h2 h3
  · cases h
    constructor
    · intro hb
      exact Or.inl (of_decide_eq_true hb)
    · intro hb
      have hnlt := of_decide_eq_false hb
      exact Or.inl (by omega)
  · cases h
    constructor
    · intro hb
      exact Or.inr ⟨not_ne_iff.mp h1, le_of_lt (of_decide_eq_true hb)⟩
    · intro hb
      have hnlt := of_decide_eq_false hb
      have : x.2.1 ≠ y.2.1 := h2
      exact Or.inr ⟨(not_ne_iff.mp h1).symm,
        le_of_lt (lt_of_le_of_ne (le_of_not_lt hnlt) (Ne.symm this))⟩
  · cases h
    constructor
    · intro hb; cases hb
    · intro _
      exact Or.inr ⟨(not_ne_iff.mp h1).symm, le_of_eq (not_ne_iff.mp h2).symm⟩

theorem carrierTupLt_error (x y : Int × String × CarrierRec) (e : PyExc)
    (h : carrierTupLt x y = .error e) : e = .typeError := by
  unfold carrierTupLt at h
  split_ifs at h
  simp_all

theorem portKeyOf_fst (qN qL : String) (qT : List String) (il : Bool) (p : PortRec) :
    (portKeyOf qN qL qT il p).1 = -(portScore qN qL qT il p) := rfl

theorem portKeyOf_last (qN qL : String) (qT : List String) (il : Bool) (p : PortRec) :
    (portKeyOf qN qL qT il p).2.2.2 = p := rfl

theorem carrierKeyOf_last (qN qS : String) (qT : List String) (is : Bool) (c : CarrierRec) :
    (carrierKeyOf qN qS qT is c).2.2 = c := rfl

theorem rankPorts_ok_some (ports : List PortRec) (q : String) (il : Bool) (r : PortRec)
    (h : rankPorts ports q il = .ok (some r)) :
    r ∈ ports ∧ ∀ p ∈ ports,
      portKeyLe (portKeyOf (asciiNorm q) (strUpper (alnumOnly q)) (pyTokens q) il r)
        (portKeyOf (asciiNorm q) (strUpper (alnumOnly q)) (pyTokens q) il p) := by
  unfold rankPorts at h
  by_cases he : ports.isEmpty
  · rw [if_pos he] at h; simp at h
  · rw [if_neg he] at h
    simp only [] at h
    cases hs : pySort portTupLt
        (ports.map (portKeyOf (asciiNorm q) (strUpper (alnumOnly q)) (pyTokens q) il)) with
    | error e => rw [hs] at h; simp [Bind.bind, Except.bind] at h
    | ok sorted =>
      rw [hs] at h
      simp only [Bind.bind, Except.bind] at h
      cases sorted with
      | nil => simp at h
      | cons k rest =>
        simp only [Except.ok.injEq, Option.some.injEq] at h
        obtain ⟨hk, hmin⟩ :=
          pySort_ok_head portKeyLe_refl portKeyLe_trans portTupLt_cons _ k rest hs
        obtain ⟨p0, hp0, hkey⟩ := List.mem_map.mp hk
        have hr : r = p0 := by rw [← h, ← hkey, portKeyOf_last]
        subst hr
        refine ⟨hp0, fun p hp => ?_⟩
        rw [hkey]
        exact hmin _ (List.mem_map_of_mem _ hp)

theorem rankCarriers_ok_some (cs : List CarrierRec) (q : String) (is : Bool) (r : CarrierRec)
    (h : rankCarriers cs q is = .ok (some r)) :
    r ∈ cs ∧ ∀ c ∈ cs,
      carrierKeyLe (carrierKeyOf (asciiNorm q) (strUpper (alnumOnly q)) (pyTokens q) is r)
        (carrierKeyOf (asciiNorm q) (strUpper (alnumOnly q)) (pyTokens q) is c) := by
  unfold rankCarriers at h
  by_cases he : cs.isEmpty
  · rw [if_pos he] at h; simp at h
  · rw [if_neg he] at h
    simp only [] at h
    cases hs : pySort carrierTupLt
        (cs.map (carrierKeyOf (asciiNorm q) (strUpper (alnumOnly q)) (pyTokens q) is)) with
    | error e => rw [hs] at h; simp [Bind.bind, Except.bind] at h
    | ok sorted =>
      rw [hs] at h
      simp only [Bind.bind, Except.bind] at h
      cases sorted with
      | nil => simp at h
      | cons k rest =>
        simp only [Except.ok.injEq, Option.some.injEq] at h
        obtain ⟨hk, hmin⟩ :=
          pySort_ok_head carrierKeyLe_refl carrierKeyLe_trans carrierTupLt_cons _ k rest hs
        obtain ⟨c0, hc0, hkey⟩ := List.mem_map.mp hk
        have hr : r = c0 := by rw [← h, ← hkey, carrierKeyOf_last]
        subst hr
        refine ⟨hc0, fun c hc => ?_⟩
        rw [hkey]
        exact hmin _ (List.mem_map_of_mem _ hc)


theorem portScore_le_four (qN qL : String) (qT : List String) (il : Bool) (p : PortRec) :
    portScore qN qL qT il p ≤ 4 := by
  simp only [portScore]
  split_ifs <;> norm_num

theorem portScore_loc_exact (qN qL : String) (qT : List String) (p : PortRec)
    (h : portExactCode qL p = true) : portScore qN qL qT true p = 4 := by
  unfold portExactCode at h
  simp only [portScore]
  rw [if_pos trivial, if_pos h]

theorem portScore_loc_exact_iff (qN qL : String) (qT : List String) (p : PortRec) :
    portScore qN qL qT true p = 4 ↔ portExactCode qL p = true := by
  constructor
  · intro h
    by_contra hne
    have hf : portExactCode qL p = false := by
      cases hx : portExactCode qL p
      · rfl
      · exact absurd hx hne
    unfold portExactCode at hf
    simp only [portScore] at h
    rw [if_pos trivial, if_neg (by simp [hf])] at h
    split_ifs at h <;> omega
  · exact portScore_loc_exact qN qL qT p

theorem rankPorts_nonempty_ne_none (ports : List PortRec) (q : String) (il : Bool)
    (hne : ports ≠ []) : rankPorts ports q il ≠ .ok none := by
  intro h
  unfold rankPorts at h
  rw [if_neg (by simpa using hne)] at h
  simp only [] at h
  cases hs : pySort portTupLt
      (ports.map (portKeyOf (asciiNorm q) (strUpper (alnumOnly q)) (pyTokens q) il)) with
  | error e => rw [hs] at h; simp [Bind.bind, Except.bind] at h
  | ok sorted =>
    rw [hs] at h
    simp only [Bind.bind, Except.bind] at h
    cases sorted with
    | cons k rest => simp at h
    | nil =>
      obtain ⟨p0, rest0, hps⟩ : ∃ p0 rest0, ports = p0 :: rest0 := by
        cases ports with
        | nil => exact absurd rfl hne
        | cons a l => exact ⟨a, l, rfl⟩
      obtain ⟨-, hm⟩ := pySortAcc_ok portKeyLe_trans portTupLt_cons _ [] []
        (by simp) hs
      have : portKeyOf (asciiNorm q) (strUpper (alnumOnly q)) (pyTokens q) il p0 ∈
          ([] : List (Int × Int × String × PortRec)) := by
        refine (hm _).mpr (Or.inr ?_)
        rw [hps]
        exact List.mem_map_of_mem _ (by simp)
      simp at this

theorem rankPorts_error_typeErr (ports : List PortRec) (q : String) (il : Bool) (e : PyExc)
    (h : rankPorts ports q il = .error e) : e = .typeError := by
  unfold rankPorts at h
  by_cases he : ports.isEmpty
  · rw [if_pos he] at h; cases h
  · rw [if_neg he] at h
    simp only [] at h
    cases hs : pySort portTupLt
        (ports.map (portKeyOf (asciiNorm q) (strUpper (alnumOnly q)) (pyTokens q) il)) with
    | error e' =>
      rw [hs] at h
      simp only [Bind.bind, Except.bind] at h
      cases h
      exact pySort_error_typeErr portTupLt_error _ [] e hs
    | ok sorted =>
      rw [hs] at h
      simp only [Bind.bind, Except.bind] at h
      cases sorted <;> simp at h

/-- If exactly one candidate has the `exact_locode` feature, a successful
code-form ranking returns precisely that candidate. -/
theorem rankPorts_unique_code (ports : List PortRec) (q : String) (c r : PortRec)
    (huniq : ports.filter (fun p => portExactCode (strUpper (alnumOnly q)) p) = [c])
    (h : rankPorts ports q true = .ok (some r)) : r = c := by
  obtain ⟨hrmem, hmin⟩ := rankPorts_ok_some ports q true r h
  have hcfil : c ∈ ports.filter (fun p => portExactCode (strUpper (alnumOnly q)) p) := by
    rw [huniq]; simp
  have hcmem : c ∈ ports := List.mem_of_mem_filter hcfil
  have hcex : portExactCode (strUpper (alnumOnly q)) c = true :=
    (List.mem_filter.mp hcfil).2
  have hle := hmin c hcmem
  have hscr : portScore (asciiNorm q) (strUpper (alnumOnly q)) (pyTokens q) true r = 4 := by
    have h4 := portScore_loc_exact (asciiNorm q) (strUpper (alnumOnly q)) (pyTokens q) c hcex
    have hle4 := portScore_le_four (asciiNorm q) (strUpper (alnumOnly q)) (pyTokens q) true r
    rcases hle with hlt | ⟨heq, -⟩
    · rw [portKeyOf_fst, portKeyOf_fst, h4] at hlt
      omega
    · rw [portKeyOf_fst, portKeyOf_fst, h4] at heq
      omega
  have hrex : portExactCode (strUpper (alnumOnly q)) r = true :=
    (portScore_loc_exact_iff (asciiNorm q) (strUpper (alnumOnly q)) (pyTokens q) r).mp hscr
  have : r ∈ ports.filter (fun p => portExactCode (strUpper (alnumOnly q)) p) :=
    List.mem_filter.mpr ⟨hrmem, hrex⟩
  rw [huniq] at this
  simpa using this


theorem mapSingle_eq_some (itin : Itin) (op dp : Option Port3) (s : Sched)
    (h : mapSingleItinerary itin op dp = some s) :
    ∃ fl rest, legsOf itin = fl :: rest ∧ s = buildSched itin op dp fl rest := by
  unfold mapSingleItinerary at h
  cases hL : legsOf itin with
  | nil => rw [hL] at h; cases h
  | cons fl rest =>
    rw [hL] at h
    simp only [] at h
    split_ifs at h
    cases h
    exact ⟨fl, rest, rfl, rfl⟩

theorem buildSched_transitDays (itin : Itin) (op dp : Option Port3) (fl : Leg)
    (rest : List Leg) :
    (buildSched itin op dp fl rest).transitDays =
      itinTransitDays itin (legEtdStr fl)
        (legEtaStr ((fl :: rest).getLast (List.cons_ne_nil _ _))) := rfl

theorem buildSched_routingType (itin : Itin) (op dp : Option Port3) (fl : Leg)
    (rest : List Leg) :
    (buildSched itin op dp fl rest).routingType =
      if (fl :: rest).length = 1 then "Direct" else "Transshipment" := rfl

theorem buildSched_legs (itin : Itin) (op dp : Option Port3) (fl : Leg)
    (rest : List Leg) :
    (buildSched itin op dp fl rest).legs =
      if ((fl :: rest).enum.map
            (fun p => mapLeg (itinVessel itin fl) (itinVoyage itin fl) p.1 p.2)).length > 1
      then some ((fl :: rest).enum.map
            (fun p => mapLeg (itinVessel itin fl) (itinVoyage itin fl) p.1 p.2))
      else none := rfl

theorem itinEtd_cons (itin : Itin) (fl : Leg) (rest : List Leg)
    (hL : legsOf itin = fl :: rest) : itinEtd itin = legEtdStr fl := by
  unfold itinEtd
  rw [hL]

theorem itinEta_cons (itin : Itin) (fl : Leg) (rest : List Leg)
    (hL : legsOf itin = fl :: rest) :
    itinEta itin = legEtaStr ((fl :: rest).getLast (List.cons_ne_nil _ _)) := by
  unfold itinEta
  rw [hL]


/-- Claim C9: for the empty candidate list and every query, `_rank_ports` and
`_rank_carriers` return the empty/absent record (modelled `none`) and raise
no exception. -/
theorem claim_C9 (q : String) (b : Bool) :
    rankPorts [] q b = .ok none ∧ rankCarriers [] q b = .ok none :=
  ⟨rfl, rfl⟩

/-- Claim C10: evaluation at the failing input.  On two candidates with the
same name and size but different locodes (so every scalar key component
ties while the trailing dicts differ), `_rank_ports` raises `TypeError`
from the tuple comparison inside `list.sort()` instead of returning an
element of the input list. -/
theorem claim_C10 :
    rankPorts [dupAlexA, dupAlexB] "rotterdam" false = .error .typeError := by
  decide

/-- Claim C2 counterexample: `_rank_carriers` on two same-name carriers does
not order the candidates by `(-score, normalizedName)` and return the first
of that ordering — the sort raises `TypeError` on the tied key tuples, so no
candidate is returned at all. -/
theorem claim_C2_counterexample :
    rankCarriers [dupCarrierA, dupCarrierB] "zzz" false = .error .typeError := by
  decide

/-- Claim C2 (amended): whenever `_rank_ports` returns a candidate, it is a
member of the input minimizing the key `(-score, -size, normalizedName)`
under ascending lexicographic order — highest score first, then larger size,
then alphabetically-first name — and whenever `_rank_carriers` returns a
candidate, it minimizes the size-free key `(-score, normalizedName)`.  (The
trailing raw record in the Python key tuple makes the sort raise `TypeError`
when two distinct candidates tie on the whole scalar prefix, so the claim
holds only of completed rankings.) -/
theorem claim_C2 :
    (∀ (ports : List PortRec) (q : String) (il : Bool) (r : PortRec),
      rankPorts ports q il = .ok (some r) →
        r ∈ ports ∧ ∀ p ∈ ports,
          portKeyLe (portKeyOf (asciiNorm q) (strUpper (alnumOnly q)) (pyTokens q) il r)
            (portKeyOf (asciiNorm q) (strUpper (alnumOnly q)) (pyTokens q) il p)) ∧
    (∀ (cs : List CarrierRec) (q : String) (is : Bool) (r : CarrierRec),
      rankCarriers cs q is = .ok (some r) →
        r ∈ cs ∧ ∀ c ∈ cs,
          carrierKeyLe (carrierKeyOf (asciiNorm q) (strUpper (alnumOnly q)) (pyTokens q) is r)
            (carrierKeyOf (asciiNorm q) (strUpper (alnumOnly q)) (pyTokens q) is c)) :=
  ⟨rankPorts_ok_some, rankCarriers_ok_some⟩

/-- Claim C2 witness: concrete instantiation on the EGALY scenario (ports)
and a SCAC scenario (carriers). -/
theorem claim_C2_witness :
    egAlexandriaAly ∈ [egAlexandriaDam, egPortSaid, egAlexandriaAly] ∧
    portKeyLe
      (portKeyOf (asciiNorm "EGALY") (strUpper (alnumOnly "EGALY")) (pyTokens "EGALY") true
        egAlexandriaAly)
      (portKeyOf (asciiNorm "EGALY") (strUpper (alnumOnly "EGALY")) (pyTokens "EGALY") true
        egPortSaid) := by
  have h := claim_C2.1 [egAlexandriaDam, egPortSaid, egAlexandriaAly] "EGALY" true
    egAlexandriaAly (by decide)
  exact ⟨h.1, h.2 egPortSaid (by simp)⟩

/-- Claim C1 counterexample: a code-form query with exactly one exact-code
candidate for which `_rank_ports` does not return that candidate: the two
other candidates share name and size, so the sort comparison reaches their
raw dicts and raises `TypeError`. -/
theorem claim_C1_counterexample :
    ([egAlexandriaAly, dupPortSaidA, dupPortSaidB].filter
        (fun p => portExactCode (strUpper (alnumOnly "EGALY")) p) = [egAlexandriaAly]) ∧
    isLocodeForm (strUpper (alnumOnly "EGALY")) = true ∧
    rankPorts [egAlexandriaAly, dupPortSaidA, dupPortSaidB] "EGALY" true =
      .error .typeError := by
  refine ⟨by decide, by decide, by decide⟩

/-- Claim C1 (amended): for every candidate list and code-form query, if
exactly one candidate's extracted code (alphanumeric-only, uppercased)
equals the alphanumeric-only uppercase query, then whenever the ranking
completes (the sort raises `TypeError` when two distinct other candidates
tie on score, size and name), `_rank_ports` returns that candidate
regardless of the other candidates' sizes or names. -/
theorem claim_C1 (ports : List PortRec) (q : String) (c r : PortRec)
    (huniq : ports.filter (fun p => portExactCode (strUpper (alnumOnly q)) p) = [c])
    (hok : rankPorts ports q true = .ok (some r)) : r = c :=
  rankPorts_unique_code ports q c r huniq hok

/-- Claim C1 witness: the EGALY scenario — ranking `"EGALY"` over the three
candidates returns the `EGALY` record despite its lower size. -/
theorem claim_C1_witness :
    ([egAlexandriaDam, egPortSaid, egAlexandriaAly].filter
        (fun p => portExactCode (strUpper (alnumOnly "EGALY")) p) = [egAlexandriaAly]) ∧
    rankPorts [egAlexandriaDam, egPortSaid, egAlexandriaAly] "EGALY" true =
      .ok (some egAlexandriaAly) ∧
    egAlexandriaAly = egAlexandriaAly :=
  ⟨by decide, by decide,
    claim_C1 [egAlexandriaDam, egPortSaid, egAlexandriaAly] "EGALY"
      egAlexandriaAly egAlexandriaAly (by decide) (by decide)⟩


/-- Claim C3 counterexample: a mapped schedule whose computed transit days
are negative.  With etd 2025-08-22T12:00:00Z and eta 2025-08-20T00:00:00Z
(no upstream value), the mapper stores `ceil(-2.5) = -2`, refuting the
"never negative" part of the claim. -/
theorem claim_C3_counterexample :
    (mapSingleItinerary negTransitItin none none).map Sched.transitDays = some (-2) ∧
    (-2 : Int) < 0 := by
  exact ⟨by decide, by decide⟩

/-- Claim C3 (amended): for every mapped schedule, `transitDays` equals the
upstream itinerary value when present and truthy (nonzero); otherwise it is
`ceil((eta - etd) in seconds / 86400)` computed by `transitCalc` from the
first leg's departure and last leg's arrival parsed as ISO-8601 with a
trailing `Z` read as UTC, defaulting to 0 when the timestamps are
unparsable.  The computed value is negative when eta precedes etd — the
claim's "never negative" does not hold (see the counterexample). -/
theorem claim_C3 (itin : Itin) (op dp : Option Port3) (s : Sched)
    (h : mapSingleItinerary itin op dp = some s) :
    s.transitDays = itinTransitDays itin (itinEtd itin) (itinEta itin) ∧
    (∀ t, itin.transitDays = some t → t ≠ 0 → s.transitDays = t) ∧
    ((itin.transitDays = none ∨ itin.transitDays = some 0) →
      s.transitDays = transitCalc (itinEtd itin) (itinEta itin)) ∧
    (pyParseIso (pyReplace (itinEtd itin) "Z" "+00:00") = none →
      (itin.transitDays = none ∨ itin.transitDays = some 0) → s.transitDays = 0) := by
  obtain ⟨fl, rest, hL, hs⟩ := mapSingle_eq_some itin op dp s h
  subst hs
  rw [buildSched_transitDays, ← itinEtd_cons itin fl rest hL, ← itinEta_cons itin fl rest hL]
  refine ⟨rfl, ?_, ?_, ?_⟩
  · intro t ht hne
    simp [itinTransitDays, ht, hne]
  · intro hcase
    rcases hcase with h0 | h0 <;> simp [itinTransitDays, h0]
  · intro hparse hcase
    have hcalc : transitCalc (itinEtd itin) (itinEta itin) = 0 := by
      unfold transitCalc
      rw [hparse]
    rcases hcase with h0 | h0 <;> simp [itinTransitDays, h0, hcalc]

/-- Claim C3 witness: etd 2025-08-20T00:00:00Z, eta 2025-08-22T12:00:00Z
with no upstream value gives transitDays = 3 (`ceil(2.5)`). -/
theorem claim_C3_witness :
    (mapSingleItinerary posTransitItin none none).map Sched.transitDays = some 3 := by
  cases hm : mapSingleItinerary posTransitItin none none with
  | none => exact absurd hm (by decide)
  | some s =>
    have h := (claim_C3 posTransitItin none none s hm).1
    show some s.transitDays = some 3
    rw [h]
    decide


/-- Claim C4, evaluated against the code: `routingType` does reach the
program's Schedule and is `"Direct"` for a one-leg itinerary and
`"Transshipment"` for a two-leg one, and the mapper does compute the
1-based, original-order leg breakdown and passes it as the `legs` keyword
(shown at the two-leg failing input); but the constructed class is the
scaffold `providers/base.py` Schedule, whose pydantic constructor ignores
the `legs` keyword entirely — the resulting Schedule is the same whatever
`legs` value the mapper passes, so no mapped Schedule ever carries a legs
list, against the claim's "carries a legs list exactly when there are 2 or
more legs". -/
theorem claim_C4 :
    (mapSingleItineraryBase posTransitItin none none).map BaseSchedule.routingType =
      some "Direct" ∧
    (mapSingleItineraryBase twoLegItin none none).map BaseSchedule.routingType =
      some "Transshipment" ∧
    (mapSingleItinerary twoLegItin none none).map
      (fun s => s.legs.map (fun ls => ls.map SchedLeg.legNumber)) =
      some (some [1, 2]) ∧
    (∀ (kw : Sched) (l : Option (List SchedLeg)),
      baseScheduleOfKwargs { kw with legs := l } = baseScheduleOfKwargs kw) := by
  refine ⟨by decide, by decide, by decide, fun kw l => rfl⟩

/-- Claim C6: when the query is code-form and the first upstream call yields
an empty candidate list, `resolve_port` retries exactly once with
`{query: original text}` and fails with the not-found `ValueError` precisely
when the candidate list is still empty; `resolve_carrier` issues exactly one
upstream request on a cache miss (never a fallback retry, its request count
is at most one on every path) and fails with not-found on its first empty
candidate list. -/
theorem claim_C6 :
    (∀ (env : PortEnv) (q : String) (sh : RespShape PortRec),
      isLocodeForm (strUpper (alnumOnly q)) = true → env.first = .ok sh →
      portsListOf sh = [] →
      (resolvePort env q).1 =
        [Req.locodeParam (strUpper (alnumOnly q)), Req.queryParam q] ∧
      ((resolvePort env q).2 = .error (.valueError ("No port found for query: " ++ q)) ↔
        fallbackCandidates env = [])) ∧
    (∀ (cache : CarrierCache) (now : Int) (resp : Except PyExc (RespShape CarrierRec))
      (q : String), cacheLookup (asciiNorm q) cache = none →
      (resolveCarrier cache now resp q).1 = [Req.queryParam q]) ∧
    (∀ (cache : CarrierCache) (now : Int) (sh : RespShape CarrierRec) (q : String),
      cacheLookup (asciiNorm q) cache = none → carriersListOf sh = [] →
      (resolveCarrier cache now (.ok sh) q).2.1 =
        .error (.valueError ("No carrier found for query: " ++ q))) ∧
    (∀ (cache : CarrierCache) (now : Int) (resp : Except PyExc (RespShape CarrierRec))
      (q : String), (resolveCarrier cache now resp q).1.length ≤ 1) := by
  refine ⟨?_, ?_, ?_, ?_⟩
  · intro env q sh hloc hfirst hempty
    unfold resolvePort
    rw [hfirst]
    simp only [hloc, hempty, List.isEmpty_nil, Bool.true_and, if_pos rfl]
    unfold fallbackCandidates
    cases hfb : env.fallback with
    | error e =>
      simp only [if_true]
      exact ⟨trivial, by simp⟩
    | ok sh2 =>
      simp only [if_true]
      refine ⟨trivial, ?_⟩
      by_cases hfe : (fallbackListOf sh2).isEmpty
      · rw [if_pos hfe]
        simp only [List.isEmpty_iff] at hfe
        simp [hfe]
      · rw [if_neg hfe]
        simp only [List.isEmpty_iff] at hfe
        cases hr : rankPorts (fallbackListOf sh2) q true with
        | error e =>
          have : e = .typeError := rankPorts_error_typeErr _ _ _ _ hr
          subst this
          simp [hfe]
        | ok best => simp [hfe]
  · intro cache now resp q hmiss
    unfold resolveCarrier
    simp only []
    rw [hmiss]
    unfold resolveCarrierFresh
    cases resp with
    | error e => rfl
    | ok sh =>
      simp only []
      by_cases hce : (carriersListOf sh).isEmpty
      · rw [if_pos hce]
      · rw [if_neg hce]
        cases rankCarriers (carriersListOf sh) q (isScacForm (strUpper (alnumOnly q))) <;> rfl
  · intro cache now sh q hmiss hempty
    unfold resolveCarrier
    simp only []
    rw [hmiss]
    unfold resolveCarrierFresh
    simp [hempty]
  · intro cache now resp q
    unfold resolveCarrier
    simp only []
    cases hl : cacheLookup (asciiNorm q) cache with
    | some v =>
      obtain ⟨r, t⟩ := v
      simp only []
      by_cases hfresh : now - t < 300
      · rw [if_pos hfresh]; simp
      · rw [if_neg hfresh]
        unfold resolveCarrierFresh
        cases resp with
        | error e => simp
        | ok sh =>
          simp only []
          by_cases hce : (carriersListOf sh).isEmpty
          · rw [if_pos hce]; simp
          · rw [if_neg hce]
            cases rankCarriers (carriersListOf sh) q (isScacForm (strUpper (alnumOnly q))) <;> simp
    | none =>
      unfold resolveCarrierFresh
      cases resp with
      | error e => simp
      | ok sh =>
        simp only []
        by_cases hce : (carriersListOf sh).isEmpty
        · rw [if_pos hce]; simp
        · rw [if_neg hce]
          cases rankCarriers (carriersListOf sh) q (isScacForm (strUpper (alnumOnly q))) <;> simp

/-- Claim C6 witness: a concrete code-form query whose first call is empty
and whose fallback is also empty fails not-found after exactly the two
requests; a concrete carrier miss issues one request and fails not-found. -/
theorem claim_C6_witness :
    ((resolvePort { first := .ok (.arr []), fallback := .ok (.arr []) } "EGALY").1 =
      [Req.locodeParam "EGALY", Req.queryParam "EGALY"]) ∧
    ((resolvePort { first := .ok (.arr []), fallback := .ok (.arr []) } "EGALY").2 =
      .error (.valueError "No port found for query: EGALY")) ∧
    ((resolveCarrier [] 0 (.ok (.arr [])) "MAEU").1 = [Req.queryParam "MAEU"]) ∧
    ((resolveCarrier [] 0 (.ok (.arr [])) "MAEU").2.1 =
      .error (.valueError "No carrier found for query: MAEU")) := by
  have hp := claim_C6.1 { first := .ok (.arr []), fallback := .ok (.arr []) } "EGALY"
    (.arr []) (by decide) rfl rfl
  have hc1 := claim_C6.2.1 [] 0 (.ok (.arr [])) "MAEU" rfl
  have hc2 := claim_C6.2.2.1 [] 0 (.arr []) "MAEU" rfl rfl
  refine ⟨?_, ?_, hc1, hc2⟩
  · have := hp.1
    simpa using this
  · exact hp.2.mpr (by decide)


/-- Claim C7, evaluated against the code: the carrier resolver does check its
in-memory cache keyed by the normalized query before calling upstream — a
hit younger than the 300-second TTL is returned with no request, an entry
with `now - insertedAt >= 300` is lazily invalidated and refetched, and a
successful fresh resolution is stored at the normalized key — but
`resolve_port` consults no cache at all: every call, however often repeated
with the same query, issues at least one upstream request. -/
theorem claim_C7 :
    (∀ (env : PortEnv) (q : String), 1 ≤ (resolvePort env q).1.length) ∧
    (∀ (cache : CarrierCache) (now : Int) (resp : Except PyExc (RespShape CarrierRec))
      (q : String) (r : Carrier3) (t : Int),
      cacheLookup (asciiNorm q) cache = some (r, t) → now - t < 300 →
      resolveCarrier cache now resp q = ([], .ok r, cache)) ∧
    (∀ (cache : CarrierCache) (now : Int) (resp : Except PyExc (RespShape CarrierRec))
      (q : String) (r : Carrier3) (t : Int),
      cacheLookup (asciiNorm q) cache = some (r, t) → 300 ≤ now - t →
      (resolveCarrier cache now resp q).1 = [Req.queryParam q]) ∧
    (∀ (cache : CarrierCache) (now : Int) (sh : RespShape CarrierRec)
      (q : String) (r : Carrier3),
      cacheLookup (asciiNorm q) cache = none →
      (resolveCarrier cache now (.ok sh) q).2.1 = .ok r →
      (resolveCarrier cache now (.ok sh) q).2.2 =
        cacheInsert (asciiNorm q) (r, now) cache) := by
  refine ⟨?_, ?_, ?_, ?_⟩
  · intro env q
    unfold resolvePort
    cases env.first with
    | error e => simp
    | ok sh => simp
  · intro cache now resp q r t hl hfresh
    unfold resolveCarrier
    simp [hl, hfresh]
  · intro cache now resp q r t hl hstale
    unfold resolveCarrier
    have hnl : ¬ now - t < 300 := by omega
    simp only [hl, hnl, if_false]
    unfold resolveCarrierFresh
    cases resp with
    | error e => rfl
    | ok sh =>
      simp only []
      by_cases hce : (carriersListOf sh).isEmpty
      · rw [if_pos hce]
      · rw [if_neg hce]
        cases rankCarriers (carriersListOf sh) q (isScacForm (strUpper (alnumOnly q))) <;> rfl
  · intro cache now sh q r hmiss hok
    unfold resolveCarrier at hok ⊢
    simp only [] at hok ⊢
    rw [hmiss] at hok ⊢
    unfold resolveCarrierFresh at hok ⊢
    simp only [] at hok ⊢
    by_cases hce : (carriersListOf sh).isEmpty
    · rw [if_pos hce] at hok
      cases hok
    · rw [if_neg hce] at hok ⊢
      cases hr : rankCarriers (carriersListOf sh) q (isScacForm (strUpper (alnumOnly q))) with
      | error e => rw [hr] at hok; cases hok
      | ok best =>
        rw [hr] at hok
        have hbest :
            (⟨carrierNameOfBest best, carrierScacOfBest best, carrierIdOfBest best⟩ : Carrier3)
              = r := by
          injection hok
        show cacheInsert (asciiNorm q)
            (⟨carrierNameOfBest best, carrierScacOfBest best, carrierIdOfBest best⟩, now) cache =
          cacheInsert (asciiNorm q) (r, now) cache
        rw [hbest]

/-- Claim C7 witness: a fresh cache hit within 300 seconds answers from the
cache with no request; at 300 seconds it refetches; a fresh miss stores the
result; and a port resolution always issues a request. -/
theorem claim_C7_witness :
    resolveCarrier [("maeu", ⟨"Maersk Line", "MAEU", "1"⟩, 100)] 200
      (.ok .other) "MAEU" = ([], .ok ⟨"Maersk Line", "MAEU", "1"⟩,
        [("maeu", ⟨"Maersk Line", "MAEU", "1"⟩, 100)]) ∧
    (resolveCarrier [("maeu", ⟨"Maersk Line", "MAEU", "1"⟩, 100)] 400
      (.ok (.arr [])) "MAEU").1 = [Req.queryParam "MAEU"] ∧
    (resolveCarrier [] 0
      (.ok (.arr [{ name := some "Maersk Line", scac := some "MAEU", id := some "1" }]))
      "MAEU").2.2 = cacheInsert (asciiNorm "MAEU") (⟨"Maersk Line", "MAEU", "1"⟩, 0) [] ∧
    1 ≤ (resolvePort { first := .ok (.arr [egPortSaid]), fallback := .ok .other }
      "EGPSD").1.length := by
  refine ⟨?_, ?_, ?_, ?_⟩
  · exact claim_C7.2.1 [("maeu", ⟨"Maersk Line", "MAEU", "1"⟩, 100)] 200 (.ok .other)
      "MAEU" ⟨"Maersk Line", "MAEU", "1"⟩ 100 (by decide) (by decide)
  · exact claim_C7.2.2.1 [("maeu", ⟨"Maersk Line", "MAEU", "1"⟩, 100)] 400 (.ok (.arr []))
      "MAEU" ⟨"Maersk Line", "MAEU", "1"⟩ 100 (by decide) (by decide)
  · exact claim_C7.2.2.2 [] 0
      (.arr [{ name := some "Maersk Line", scac := some "MAEU", id := some "1" }])
      "MAEU" ⟨"Maersk Line", "MAEU", "1"⟩ (by decide) (by decide)
  · exact claim_C7.1 { first := .ok (.arr [egPortSaid]), fallback := .ok .other } "EGPSD"


/-- Claim C5: in `SearoutesProvider.list`, a not-found (`ValueError`) while
resolving the origin or the destination port is absorbed and yields an empty
item list with the input page passed through (not an error to the caller); a
not-found while resolving the carrier is absorbed by dropping the carrier
filter and continuing (the run equals the run with no carrier filter); and
upstream `SearoutesError`s — from resolution or from the itinerary request —
propagate to the request boundary unchanged. -/
theorem claim_C5 :
    (∀ rp rc ex (flt : Filt) (pg : PageM) (o m : String),
      flt.origin = some o → o ≠ "" → rp o = .error (.valueError m) →
      searoutesList rp rc ex flt pg = .ok ([], pg)) ∧
    (∀ rp rc ex (flt : Filt) (pg : PageM) (d m : String) (p : Port3) (o : String),
      flt.origin = some o → o ≠ "" → rp o = .ok p →
      flt.destination = some d → d ≠ "" → rp d = .error (.valueError m) →
      searoutesList rp rc ex flt pg = .ok ([], pg)) ∧
    (∀ rp rc ex (flt : Filt) (pg : PageM) (cq m o d : String) (p1 p2 : Port3),
      flt.origin = some o → o ≠ "" → rp o = .ok p1 →
      flt.destination = some d → d ≠ "" → rp d = .ok p2 →
      flt.carrier = some cq → cq ≠ "" → rc cq = .error (.valueError m) →
      searoutesList rp rc ex flt pg = searoutesList rp rc ex { flt with carrier := none } pg) ∧
    (∀ rp rc ex (flt : Filt) (pg : PageM) (o m : String),
      flt.origin = some o → o ≠ "" → rp o = .error (.searoutes m) →
      searoutesList rp rc ex flt pg = .error (.searoutes m)) ∧
    (∀ rp rc ex (flt : Filt) (pg : PageM) (m : String),
      flt.origin = none → flt.destination = none → flt.carrier = none →
      flt.date_from = none → flt.date_to = none →
      ex { fromLocode := none, toLocode := none, carrierScac := none,
           fromDate := none, toDate := none } = .error (.searoutes m) →
      searoutesList rp rc ex flt pg = .error (.searoutes m)) := by
  refine ⟨?_, ?_, ?_, ?_, ?_⟩
  · intro rp rc ex flt pg o m hO hno hrp
    unfold searoutesList listBody resolveSide
    simp [hO, hno, hrp, optTruthy]
  · intro rp rc ex flt pg d m p o hO hno hrp hD hnd hrd
    unfold searoutesList listBody resolveSide
    simp [hO, hno, hrp, hD, hnd, hrd, optTruthy]
  · intro rp rc ex flt pg cq m o d p1 p2 hO hno hrp hD hnd hrd hC hnc hrc
    have hfil : ∀ ss, applyFilters
        { origin := some o, destination := some d, date_from := flt.date_from,
          date_to := flt.date_to, routingType := flt.routingType, carrier := none,
          equipment := flt.equipment, sort := flt.sort } ss = applyFilters flt ss := by
      intro ss
      unfold applyFilters
      rfl
    unfold searoutesList listBody resolveSide
    simp [hO, hno, hrp, hD, hnd, hrd, hC, hnc, hrc, optTruthy, hfil]
  · intro rp rc ex flt pg o m hO hno hrp
    unfold searoutesList listBody resolveSide
    simp [hO, hno, hrp, optTruthy]
  · intro rp rc ex flt pg m hO hD hC hdf hdt hex
    unfold searoutesList listBody resolveSide
    simp [hO, hD, hC, hdf, hdt, optTruthy, hex]


/-- Claim C5 witness: concrete runs of the `list` model — origin not found
gives an empty page, destination not found gives an empty page, carrier not
found equals the run without the carrier filter, and upstream errors from
resolution and from the itinerary call surface unchanged. -/
theorem claim_C5_witness :
    searoutesList rpW rcW exW { origin := some "NOPE" } {} = .ok ([], {}) ∧
    searoutesList rpW rcW exW { origin := some "EGALY", destination := some "GONE" } {} =
      .ok ([], {}) ∧
    searoutesList rpW rcW exW
        { origin := some "EGALY", destination := some "EGALY", carrier := some "NADA" } {} =
      searoutesList rpW rcW exW
        { origin := some "EGALY", destination := some "EGALY", carrier := none } {} ∧
    searoutesList rpW rcW exW { origin := some "BOOM" } {} =
      .error (.searoutes "HTTP_502") ∧
    searoutesList rpW rcW (fun _ => .error (.searoutes "HTTP_503")) {} {} =
      .error (.searoutes "HTTP_503") := by
  refine ⟨?_, ?_, ?_, ?_, ?_⟩
  · exact claim_C5.1 rpW rcW exW { origin := some "NOPE" } {} "NOPE" "No port found"
      rfl (by decide) (by decide)
  · exact claim_C5.2.1 rpW rcW exW { origin := some "EGALY", destination := some "GONE" } {}
      "GONE" "No port found" ⟨"Alexandria", "EGALY", "EG"⟩ "EGALY"
      rfl (by decide) (by decide) rfl (by decide) (by decide)
  · exact claim_C5.2.2.1 rpW rcW exW
      { origin := some "EGALY", destination := some "EGALY", carrier := some "NADA" } {}
      "NADA" "No carrier found" "EGALY" "EGALY"
      ⟨"Alexandria", "EGALY", "EG"⟩ ⟨"Alexandria", "EGALY", "EG"⟩
      rfl (by decide) (by decide) rfl (by decide) (by decide) rfl (by decide) (by decide)
  · exact claim_C5.2.2.2.1 rpW rcW exW { origin := some "BOOM" } {} "BOOM" "HTTP_502"
      rfl (by decide) (by decide)
  · exact claim_C5.2.2.2.2 rpW rcW (fun _ => .error (.searoutes "HTTP_503")) {} {} "HTTP_503"
      rfl rfl rfl rfl rfl rfl


theorem resolvePort_trace_head (env : PortEnv) (q : String) :
    (resolvePort env q).1.head? =
      some (if isLocodeForm (strUpper (alnumOnly q)) then
        Req.locodeParam (strUpper (alnumOnly q)) else Req.queryParam q) := by
  unfold resolvePort
  cases env.first with
  | error e => rfl
  | ok sh => rfl

theorem resolvePort_ok_result (env : PortEnv) (q : String) (sh : RespShape PortRec)
    (a : Port3) (hfirst : env.first = .ok sh) (hne : portsListOf sh ≠ [])
    (hok : (resolvePort env q).2 = .ok a) :
    ∃ best, rankPorts (portsListOf sh) q (isLocodeForm (strUpper (alnumOnly q))) =
        .ok (some best) ∧
      a = ⟨portNameOf best, portLocodeOf best, portCountryOf best⟩ := by
  unfold resolvePort at hok
  rw [hfirst] at hok
  simp only [] at hok
  have hcond : ((portsListOf sh).isEmpty &&
      isLocodeForm (strUpper (alnumOnly q))) = false := by
    have : (portsListOf sh).isEmpty = false := by
      simpa [List.isEmpty_iff] using hne
    simp [this]
  rw [hcond] at hok
  simp only [Bool.false_eq_true, if_false] at hok
  have hpe : (portsListOf sh).isEmpty = false := by
    simpa [List.isEmpty_iff] using hne
  rw [hpe] at hok
  simp only [Bool.false_eq_true, if_false] at hok
  cases hr : rankPorts (portsListOf sh) q (isLocodeForm (strUpper (alnumOnly q))) with
  | error e => rw [hr] at hok; cases hok
  | ok best =>
    rw [hr] at hok
    cases best with
    | none => exact absurd hr (rankPorts_nonempty_ne_none _ _ _ hne)
    | some b =>
      refine ⟨b, rfl, ?_⟩
      injection hok with h
      exact h.symm


/-- Claim C8 counterexample: `"EG-PSD"` and `"EGPSD"` have the same
alphanumeric-only uppercase form, both classify as code-form, and the
upstream environment answers both with the same candidate list — yet
`resolve_port` returns two different canonical records, because the ranking
scores candidate names against the original query text. -/
theorem claim_C8_counterexample :
    strUpper (alnumOnly "EG-PSD") = strUpper (alnumOnly "EGPSD") ∧
    isLocodeForm (strUpper (alnumOnly "EG-PSD")) = true ∧
    (resolvePort envDashCompact "EG-PSD").2 = .ok ⟨"eg-psd", "XXBBB", ""⟩ ∧
    (resolvePort envDashCompact "EGPSD").2 = .ok ⟨"egpsd", "XXAAA", ""⟩ ∧
    (resolvePort envDashCompact "EG-PSD").2 ≠ (resolvePort envDashCompact "EGPSD").2 := by
  refine ⟨by decide, by decide, by decide, by decide, by decide⟩

/-- Claim C8 (amended): `alnumOnly("EG-PSD") = "EGPSD"`; two code-form
queries with the same alphanumeric-only uppercase form issue the identical
first upstream request `{locode: code}`, and when exactly one candidate of
the shared response has that exact code, both queries resolve to the same
canonical record.  In general, however, the resolved record may differ
between the two spellings (see the counterexample), since name-based scores
use the original query text. -/
theorem claim_C8 :
    alnumOnly "EG-PSD" = "EGPSD" ∧
    (∀ (q1 q2 : String) (env : PortEnv),
      strUpper (alnumOnly q1) = strUpper (alnumOnly q2) →
      isLocodeForm (strUpper (alnumOnly q1)) = true →
      (resolvePort env q1).1.head? = some (Req.locodeParam (strUpper (alnumOnly q1))) ∧
      (resolvePort env q2).1.head? = some (Req.locodeParam (strUpper (alnumOnly q1)))) ∧
    (∀ (env : PortEnv) (q1 q2 : String) (sh : RespShape PortRec) (c : PortRec)
      (a b : Port3),
      env.first = .ok sh →
      strUpper (alnumOnly q1) = strUpper (alnumOnly q2) →
      isLocodeForm (strUpper (alnumOnly q1)) = true →
      (portsListOf sh).filter (fun p => portExactCode (strUpper (alnumOnly q1)) p) = [c] →
      (resolvePort env q1).2 = .ok a → (resolvePort env q2).2 = .ok b → a = b) := by
  refine ⟨by decide, ?_, ?_⟩
  · intro q1 q2 env hclean hloc
    constructor
    · rw [resolvePort_trace_head, if_pos hloc]
    · rw [resolvePort_trace_head, ← hclean, if_pos hloc]
  · intro env q1 q2 sh c a b hfirst hclean hloc huniq hok1 hok2
    have hcmem : c ∈ portsListOf sh := by
      have : c ∈ (portsListOf sh).filter
          (fun p => portExactCode (strUpper (alnumOnly q1)) p) := by
        rw [huniq]; simp
      exact List.mem_of_mem_filter this
    have hne : portsListOf sh ≠ [] := List.ne_nil_of_mem hcmem
    obtain ⟨b1, hr1, ha⟩ := resolvePort_ok_result env q1 sh a hfirst hne hok1
    obtain ⟨b2, hr2, hb⟩ := resolvePort_ok_result env q2 sh b hfirst hne hok2
    rw [hloc] at hr1
    have hloc2 : isLocodeForm (strUpper (alnumOnly q2)) = true := hclean ▸ hloc
    rw [hloc2] at hr2
    have he1 : b1 = c := rankPorts_unique_code (portsListOf sh) q1 c b1 huniq hr1
    have he2 : b2 = c := by
      refine rankPorts_unique_code (portsListOf sh) q2 c b2 ?_ hr2
      rw [← hclean]
      exact huniq
    rw [ha, hb, he1, he2]

/-- Claim C8 witness: concrete instantiation — the dashed and compact
spellings issue the same `{locode: "EGPSD"}` request, and against a response
holding exactly one `EGALY`-coded candidate, `"EG-ALY"` and `"EGALY"`
resolve to the same record. -/
theorem claim_C8_witness :
    (resolvePort envDashCompact "EG-PSD").1.head? = some (Req.locodeParam "EGPSD") ∧
    (resolvePort envDashCompact "EGPSD").1.head? = some (Req.locodeParam "EGPSD") ∧
    (resolvePort envUnique "EG-ALY").2 = (resolvePort envUnique "EGALY").2 := by
  have h2 := claim_C8.2.1 "EG-PSD" "EGPSD" envDashCompact (by decide) (by decide)
  have e : strUpper (alnumOnly "EG-PSD") = "EGPSD" := by decide
  rw [e] at h2
  refine ⟨h2.1, h2.2, ?_⟩
  have hok1 : (resolvePort envUnique "EG-ALY").2 =
      .ok ⟨"Alexandria", "EGALY", "EG"⟩ := by decide
  have hok2 : (resolvePort envUnique "EGALY").2 =
      .ok ⟨"Alexandria", "EGALY", "EG"⟩ := by decide
  have hab := claim_C8.2.2 envUnique "EG-ALY" "EGALY"
    (.arr [egPortSaid, egAlexandriaAly]) egAlexandriaAly
    ⟨"Alexandria", "EGALY", "EG"⟩ ⟨"Alexandria", "EGALY", "EG"⟩
    rfl (by decide) (by decide) (by decide) hok1 hok2
  rw [hok1, hok2]


end Searoutes
